import Mathlib

/-!
Verification development for the Write-language compiler pipeline
(src/compiler: lexer.py, parser.py, semantic.py, codegen.py).

The Python sources are shallowly embedded below.  Python exceptions are
modelled with `Except PyErr`; the mutable cursor / scope-stack state is
threaded explicitly.  Machine integers do not occur (Python ints are
unbounded); numeric literals are carried as raw lexeme strings exactly as
the source does.  Each definition keeps the name of the Python entity it
embeds (leading underscores dropped, e.g. `_string` becomes `stringScan`).
-/

namespace Write

/-- Exception kinds observable from the pipeline.  `lexerError`,
`parseError` and `semanticError` embed the three domain exception classes;
`attributeError` and `typeError` model Python's built-in exceptions, which
the code can also raise (e.g. a reference to a missing enum member raises
`AttributeError`, a call with too many positional arguments raises
`TypeError`).  `fuelExhausted` is an artifact of the fuel-bounded embedding
of the recursive-descent parser and never occurs in any evaluation below. -/
inductive PyErr where
  | lexerError (msg : String)
  | parseError (msg : String)
  | semanticError (msg : String)
  | attributeError (member : String)
  | typeError (msg : String)
  | fuelExhausted
  deriving DecidableEq, Repr

/-- lexer.py `TokenKind` (lines 13-42).  Note: the enum defines no
`LBRACKET`, `RBRACKET` or `COLON` members, although parser.py refers to
them; see `TokenKind.member?`. -/
inductive TokenKind where
  | PLUS | MINUS | STAR | SLASH | CARET | LPAREN | RPAREN | COMMA
  | BANG | AMP | PIPE | EQEQ | EQ | NEQ | GT | LT | GTE | LTE
  | NUMBER | STRING | IDENT | KEYWORD | EOF
  deriving DecidableEq, Repr

/-- Python attribute lookup `TokenKind.<name>` on the `TokenKind` enum of
lexer.py.  Exactly the members declared there resolve; any other name
raises `AttributeError` at the access site (modelled by `none`). -/
def TokenKind.member? : String → Option TokenKind
  | "PLUS" => some .PLUS
  | "MINUS" => some .MINUS
  | "STAR" => some .STAR
  | "SLASH" => some .SLASH
  | "CARET" => some .CARET
  | "LPAREN" => some .LPAREN
  | "RPAREN" => some .RPAREN
  | "COMMA" => some .COMMA
  | "BANG" => some .BANG
  | "AMP" => some .AMP
  | "PIPE" => some .PIPE
  | "EQEQ" => some .EQEQ
  | "EQ" => some .EQ
  | "NEQ" => some .NEQ
  | "GT" => some .GT
  | "LT" => some .LT
  | "GTE" => some .GTE
  | "LTE" => some .LTE
  | "NUMBER" => some .NUMBER
  | "STRING" => some .STRING
  | "IDENT" => some .IDENT
  | "KEYWORD" => some .KEYWORD
  | "EOF" => some .EOF
  | _ => none

/-- lexer.py `KEYWORDS` (lines 45-78), verbatim. -/
def KEYWORDS : List String :=
  ["set", "to", "print", "make", "input", "as", "if", "else", "end",
   "then", "while", "do", "for", "from", "and", "or", "not", "is",
   "greater", "less", "equal", "than",
   "add", "subtract", "multiply", "divide", "power",
   "int", "float", "string", "bool"]

/-- lexer.py `Token` (lines 81-86). -/
structure Token where
  kind : TokenKind
  lexeme : String
  line : Nat
  col : Nat
  deriving DecidableEq, Repr

/-- lexer.py `Lexer._string` (lines 226-245).  Called after the opening
quote has been consumed; `escaped` is the escape flag, `acc` holds (in
reverse) the characters consumed so far inside the literal.  Each loop
iteration advances one character (`_advance` bumps `col`); an unescaped
quote terminates the literal, whose lexeme is the slice between the quotes
(`source[start+1 : pos-1]`, i.e. `acc` reversed); an unescaped newline
bumps `line` and resets `col` to 1 and scanning continues; end of input
raises `LexerError` with the current line/col. -/
def stringScan : List Char → Bool → Nat → Nat → List Char →
    Except PyErr (String × List Char × Nat × Nat)
  | [], _, line, col, _ =>
      .error (.lexerError ("Unterminated string at " ++ toString line ++ ":"
        ++ toString col))
  | ch :: rest, escaped, line, col, acc =>
      if escaped then
        stringScan rest false line (col + 1) (ch :: acc)
      else if ch = '\\' then
        stringScan rest true line (col + 1) (ch :: acc)
      else if ch = '"' then
        .ok (String.mk acc.reverse, rest, line, col + 1)
      else if ch = '\n' then
        stringScan rest false (line + 1) 1 (ch :: acc)
      else
        stringScan rest false line (col + 1) (ch :: acc)

/-- Cons a freshly produced token onto the result of scanning the rest of
the input (the Python loop appends to `self.tokens` in order). -/
def consTok (t : Token) (r : Except PyErr (List Token × Nat × Nat)) :
    Except PyErr (List Token × Nat × Nat) :=
  match r with
  | .error e => .error e
  | .ok (ts, l, c) => .ok (t :: ts, l, c)

/-- lexer.py `Lexer.scan` main loop (lines 103-193), one iteration per
outer `while`.  `cs` is the unread input, `line`/`col` the position
counters (`_advance` bumps `col` before each branch runs, hence the
`col + 1` terms).  Token lexemes are the consumed source slices; a token's
recorded line/col is `self.line`/`self.col` at `_add` time, i.e. after its
last character was consumed.  Returns the tokens produced plus the final
line/col (used for the EOF token appended by `scan`). -/
def scanLoop : Nat → List Char → Nat → Nat →
    Except PyErr (List Token × Nat × Nat)
  | 0, _, _, _ => .error .fuelExhausted
  | _ + 1, [], line, col => .ok ([], line, col)
  | fuel + 1, c :: rest, line, col =>
    if c = ' ' ∨ c = '\t' ∨ c = '\r' then
      scanLoop fuel rest line (col + 1)
    else if c = '\n' then
      scanLoop fuel rest (line + 1) 1
    else if c = '#' then
      -- `_skip_until_newline` stops just before the newline
      let k := (rest.takeWhile (fun ch => ch ≠ '\n')).length
      scanLoop fuel (rest.drop k) line (col + 1 + k)
    else if c = '"' then
      match stringScan rest false line (col + 1) [] with
      | .error e => .error e
      | .ok (lex, rest2, line2, col2) =>
        consTok ⟨.STRING, lex, line2, col2⟩ (scanLoop fuel rest2 line2 col2)
    else if c.isDigit then
      -- `_number`: a digit run, optionally '.' followed by more digits
      -- (the '.' is only consumed when `_peek_next` is a digit)
      let ds := rest.takeWhile Char.isDigit
      match rest.drop ds.length with
      | '.' :: d :: r2 =>
        if d.isDigit then
          let frac := (d :: r2).takeWhile Char.isDigit
          let lexeme := c :: (ds ++ '.' :: frac)
          consTok ⟨.NUMBER, String.mk lexeme, line, col + lexeme.length⟩
            (scanLoop fuel ((d :: r2).drop frac.length) line (col + lexeme.length))
        else
          let lexeme := c :: ds
          consTok ⟨.NUMBER, String.mk lexeme, line, col + lexeme.length⟩
            (scanLoop fuel (rest.drop ds.length) line (col + lexeme.length))
      | _ =>
        let lexeme := c :: ds
        consTok ⟨.NUMBER, String.mk lexeme, line, col + lexeme.length⟩
          (scanLoop fuel (rest.drop ds.length) line (col + lexeme.length))
    else if c.isAlpha ∨ c = '_' then
      -- `_identifier`: maximal run of alphanumerics/underscore
      let ws := rest.takeWhile (fun ch => ch.isAlphanum ∨ ch = '_')
      let text := String.mk (c :: ws)
      let kind := if KEYWORDS.contains text then TokenKind.KEYWORD
        else TokenKind.IDENT
      consTok ⟨kind, text, line, col + 1 + ws.length⟩
        (scanLoop fuel (rest.drop ws.length) line (col + 1 + ws.length))
    else if c = '=' then
      match rest with
      | '=' :: r2 => consTok ⟨.EQEQ, "==", line, col + 2⟩
          (scanLoop fuel r2 line (col + 2))
      | _ => consTok ⟨.EQ, "=", line, col + 1⟩ (scanLoop fuel rest line (col + 1))
    else if c = '!' then
      match rest with
      | '=' :: r2 => consTok ⟨.NEQ, "!=", line, col + 2⟩
          (scanLoop fuel r2 line (col + 2))
      | _ => consTok ⟨.BANG, "!", line, col + 1⟩ (scanLoop fuel rest line (col + 1))
    else if c = '>' then
      match rest with
      | '=' :: r2 => consTok ⟨.GTE, ">=", line, col + 2⟩
          (scanLoop fuel r2 line (col + 2))
      | _ => consTok ⟨.GT, ">", line, col + 1⟩ (scanLoop fuel rest line (col + 1))
    else if c = '<' then
      match rest with
      | '=' :: r2 => consTok ⟨.LTE, "<=", line, col + 2⟩
          (scanLoop fuel r2 line (col + 2))
      | _ => consTok ⟨.LT, "<", line, col + 1⟩ (scanLoop fuel rest line (col + 1))
    else if c = '&' then
      consTok ⟨.AMP, "&", line, col + 1⟩ (scanLoop fuel rest line (col + 1))
    else if c = '|' then
      consTok ⟨.PIPE, "|", line, col + 1⟩ (scanLoop fuel rest line (col + 1))
    else if c = '+' then
      consTok ⟨.PLUS, "+", line, col + 1⟩ (scanLoop fuel rest line (col + 1))
    else if c = '-' then
      consTok ⟨.MINUS, "-", line, col + 1⟩ (scanLoop fuel rest line (col + 1))
    else if c = '*' then
      consTok ⟨.STAR, "*", line, col + 1⟩ (scanLoop fuel rest line (col + 1))
    else if c = '/' then
      consTok ⟨.SLASH, "/", line, col + 1⟩ (scanLoop fuel rest line (col + 1))
    else if c = '^' then
      consTok ⟨.CARET, "^", line, col + 1⟩ (scanLoop fuel rest line (col + 1))
    else if c = '(' then
      consTok ⟨.LPAREN, "(", line, col + 1⟩ (scanLoop fuel rest line (col + 1))
    else if c = ')' then
      consTok ⟨.RPAREN, ")", line, col + 1⟩ (scanLoop fuel rest line (col + 1))
    else if c = ',' then
      consTok ⟨.COMMA, ",", line, col + 1⟩ (scanLoop fuel rest line (col + 1))
    else
      .error (.lexerError ("Unhandled character \x27" ++ String.mk [c]
        ++ "\x27 at " ++ toString line ++ ":" ++ toString (col + 1)))

/-- lexer.py `Lexer.scan` (lines 103-195): run the loop from line 1,
col 1, then append the single EOF token carrying the final line/col.
Every loop iteration consumes at least one character, so
`length + 1` fuel always suffices (`fuelExhausted` is unreachable). -/
def scan (source : String) : Except PyErr (List Token) :=
  match scanLoop (source.toList.length + 1) source.toList 1 1 with
  | .error e => .error e
  | .ok (ts, l, c) => .ok (ts ++ [⟨.EOF, "", l, c⟩])

/-- Number of newlines in a character list (used to state how the string
scanner advances `self.line` across an open literal). -/
def countNL : List Char → Nat
  | [] => 0
  | ch :: rest => (if ch = '\n' then 1 else 0) + countNL rest

/-- Column counter after the string scanner consumes `cs` starting at
column `col` (a newline resets it to 1, anything else increments). -/
def stringCol : List Char → Nat → Nat
  | [], col => col
  | ch :: rest, col =>
    if ch = '\n' then stringCol rest 1 else stringCol rest (col + 1)

/-! ## AST (ast.py)

Every node carries the optional `line`/`col` of ast.py's `Node` base
class.  ast.py's `String` expression node is named `Str` here (the name
`String` would shadow the builtin string type), and `For`'s `end` field is
named `stop` (`end` is a Lean keyword). -/

/-- ast.py expression nodes (lines 17-59). -/
inductive Expr where
  | Number (value : String) (line col : Option Nat)
  | Str (value : String) (line col : Option Nat)
  | Var (name : String) (line col : Option Nat)
  | Unary (op : String) (right : Expr) (line col : Option Nat)
  | Binary (left : Expr) (op : String) (right : Expr) (line col : Option Nat)
  | Power (base exponent : Expr) (line col : Option Nat)
  | Index (name : String) (index : Expr) (line col : Option Nat)
  deriving DecidableEq, Repr

/-- ast.py `Param` (lines 139-143). -/
structure Param where
  name : String
  type : Option String
  default : Option Expr
  line : Option Nat
  col : Option Nat
  deriving DecidableEq, Repr

/-- ast.py `Arg` (lines 146-149). -/
structure Arg where
  name : Option String
  value : Expr
  line : Option Nat
  col : Option Nat
  deriving DecidableEq, Repr

mutual
/-- ast.py statement nodes (lines 62-162).  `Call` doubles as ast.py's
call statement. -/
inductive Stmt where
  | Assign (name : String) (expr : Expr) (type : Option String)
      (line col : Option Nat)
  | IndexAssign (name : String) (index : Expr) (expr : Expr)
      (line col : Option Nat)
  | Declaration (name : String) (type : Option String) (size : Option Expr)
      (line col : Option Nat)
  | Input (name : String) (type : Option String) (prompt : Option String)
      (line col : Option Nat)
  | Print (values : List Expr) (line col : Option Nat)
  | Return (values : List Expr) (line col : Option Nat)
  | If (first : IfBranch) (elifs : List IfBranch)
      (else_body : Option (List Stmt)) (line col : Option Nat)
  | While (cond : Expr) (body : List Stmt) (line col : Option Nat)
  | For (var : String) (start : Expr) (stop : Expr) (body : List Stmt)
      (line col : Option Nat)
  | Call (name : String) (args : List Arg) (line col : Option Nat)
  deriving Repr

/-- ast.py `IfBranch` (lines 112-115). -/
inductive IfBranch where
  | mk (cond : Expr) (body : List Stmt) (line col : Option Nat)
  deriving Repr
end

def IfBranch.cond : IfBranch → Expr
  | .mk c _ _ _ => c

def IfBranch.body : IfBranch → List Stmt
  | .mk _ b _ _ => b

def IfBranch.line : IfBranch → Option Nat
  | .mk _ _ l _ => l

def IfBranch.col : IfBranch → Option Nat
  | .mk _ _ _ c => c

/-- ast.py `Function` (lines 159-162). -/
structure Function where
  name : String
  params : List Param
  body : List Stmt
  line : Option Nat
  col : Option Nat
  deriving Repr

/-- ast.py `Program` (lines 68-70). -/
structure Program where
  functions : List Function
  statements : List Stmt
  line : Option Nat
  col : Option Nat
  deriving Repr

/-! ## Semantic analyzer (semantic.py) -/

/-- semantic.py `TypeInfo` (lines 25-31).  `size` is a Python int (for
containers with known literal size). -/
structure TypeInfo where
  name : Option String
  size : Option Int
  deriving DecidableEq, Repr

/-- semantic.py `ParamInfo` (lines 33-38). -/
structure ParamInfo where
  name : String
  type : Option String
  has_default : Bool
  deriving DecidableEq, Repr

/-- semantic.py `FunctionSig` (lines 40-44). -/
structure FunctionSig where
  name : String
  params : List ParamInfo
  deriving DecidableEq, Repr

/-- semantic.py type sets (lines 46-49).  Membership in the Python `set`s
is modelled with `List.contains`. -/
def Numeric : List String := ["int", "float"]

def LogicTypes : List String := ["int", "float", "bool"]

def AllTypes : List String := ["int", "float", "string", "bool", "list", "array"]

def ContainerTypes : List String := ["list", "array"]

/-- The mutable fields of semantic.py's `Analyzer` (lines 53-57).  Python
keeps the innermost scope at the *end* of `env_stack`; here it is kept at
the *head* (`push`/`pop`/`reversed`-iteration translate accordingly).
Python dicts are modelled as association lists (`dictGet`/`dictSet`). -/
structure AnalyzerState where
  env_stack : List (List (String × TypeInfo))
  functions : List (String × FunctionSig)
  function_depth : Int
  source_lines : List String
  deriving Repr

/-- Python `d.get(k)` on a string-keyed dict. -/
def dictGet (d : List (String × α)) (k : String) : Option α :=
  (d.find? (fun p => p.1 = k)).map (·.2)

/-- Python `d[k] = v`: replace an existing entry, else append a new one. -/
def dictSet (d : List (String × α)) (k : String) (v : α) : List (String × α) :=
  if d.any (fun p => p.1 = k) then
    d.map (fun p => if p.1 = k then (k, v) else p)
  else d ++ [(k, v)]

/-- Python `str(opt)` for an `Optional[str]` interpolated into messages. -/
def optStr : Option String → String
  | some s => s
  | none => "None"

/-- Split a character list at newlines (helper for `splitlines`). -/
def splitOnNl (cs : List Char) (acc : List Char) : List String :=
  match cs with
  | [] => [String.mk acc.reverse]
  | '\n' :: rest => String.mk acc.reverse :: splitOnNl rest []
  | c :: rest => splitOnNl rest (c :: acc)

/-- Python `source.splitlines()` for newline-separated text (the only
line separator produced by this pipeline's callers): a trailing newline
produces no trailing empty line, and the empty string has no lines. -/
def splitlines (s : String) : List String :=
  let parts := splitOnNl s.toList []
  if parts.getLastD "" = "" then parts.dropLast else parts

/-- semantic.py `Analyzer.__init__` (lines 53-57). -/
def initState (source : String) : AnalyzerState :=
  ⟨[[]], [], 0, splitlines source⟩

/-- semantic.py `Analyzer._env` (lines 336-337): the innermost scope. -/
def env (st : AnalyzerState) : List (String × TypeInfo) :=
  st.env_stack.headD []

/-- Assignment into the innermost scope (`self._env()[name] = ti`).  The
`[]` case cannot arise: the stack starts non-empty and `popEnv` never
empties it. -/
def envSet (st : AnalyzerState) (k : String) (v : TypeInfo) : AnalyzerState :=
  match st.env_stack with
  | f :: rest => { st with env_stack := dictSet f k v :: rest }
  | [] => st

/-- semantic.py `Analyzer._push_env` (lines 339-340). -/
def pushEnv (st : AnalyzerState) : AnalyzerState :=
  { st with env_stack := [] :: st.env_stack }

/-- semantic.py `Analyzer._pop_env` (lines 342-344): refuses to pop the
last (global) frame. -/
def popEnv (st : AnalyzerState) : AnalyzerState :=
  match st.env_stack with
  | _ :: g :: rest => { st with env_stack := g :: rest }
  | _ => st

/-- semantic.py `Analyzer._lookup` (lines 346-350): innermost-to-outermost
search. -/
def lookupVar (frames : List (List (String × TypeInfo))) (name : String) :
    Option TypeInfo :=
  match frames with
  | [] => none
  | f :: rest =>
    match dictGet f name with
    | some ti => some ti
    | none => lookupVar rest name

/-- semantic.py `Analyzer._err` (lines 473-480): semantic errors carry the
node's line/col, the source line and a caret when the line number is known
and in range, else just the message. -/
def errAt (line col : Option Nat) (sourceLines : List String) (msg : String) :
    Except PyErr α :=
  match line with
  | some l =>
    if 1 ≤ l ∧ l ≤ sourceLines.length then
      let srcLine := sourceLines.getD (l - 1) ""
      let caretPad := match col with
        | some cc => if cc > 0 then cc - 1 else 0
        | none => 0
      let caret := String.mk (List.replicate caretPad ' ') ++ "^"
      let colStr := match col with
        | some cc => toString cc
        | none => "None"
      .error (.semanticError (msg ++ " at " ++ toString l ++ ":" ++ colStr
        ++ "\n    " ++ srcLine ++ "\n    " ++ caret))
    else .error (.semanticError msg)
  | none => .error (.semanticError msg)

/-- semantic.py `Analyzer._is_float_literal` (lines 483-484):
`"." in lexeme`. -/
def isFloatLiteral (lexeme : String) : Bool := lexeme.toList.contains '.'

/-- semantic.py `Analyzer._is_numeric` (lines 486-487).  The analyzer only
passes concrete type strings here, so the Python `None` case is dropped. -/
def isNumeric (typ : String) : Bool := Numeric.contains typ || typ == "auto"

/-- semantic.py `Analyzer._is_logic` (lines 489-490). -/
def isLogic (typ : String) : Bool := LogicTypes.contains typ || typ == "auto"

/-- `base.name not in ContainerTypes` on an `Optional[str]` (Python
`None in ContainerTypes` is `False`). -/
def isContainerName : Option String → Bool
  | some bn => ContainerTypes.contains bn
  | none => false

/-- Value of a decimal digit run. -/
def digitsNat (ds : List Char) : Nat :=
  ds.foldl (fun a d => a * 10 + (d.toNat - '0'.toNat)) 0

/-- Python `int(s)` for an optional sign followed by digits (`int()` also
accepts surrounding whitespace and underscores, which no lexeme produced
by this pipeline contains); anything else raises `ValueError`, modelled as
`none`. -/
def pyInt? (s : String) : Option Int :=
  match s.toList with
  | '-' :: ds =>
    if ds ≠ [] ∧ ds.all Char.isDigit then some (-(digitsNat ds : Int)) else none
  | '+' :: ds =>
    if ds ≠ [] ∧ ds.all Char.isDigit then some (digitsNat ds) else none
  | ds =>
    if ds ≠ [] ∧ ds.all Char.isDigit then some (digitsNat ds) else none

/-- semantic.py `Analyzer._literal_int_value` (lines 464-470): a literal
integer is a `Number` node whose lexeme has no `.` and parses as an int. -/
def literalIntValue : Expr → Option Int
  | .Number v _ _ => if isFloatLiteral v then none else pyInt? v
  | _ => none

/-- semantic.py `Analyzer._ensure_assignable` (lines 352-363).  The first
(target) type can be `None` in Python; the second (expression) type is
always a concrete string at every call site. -/
def ensureAssignable (line col : Option Nat) (sourceLines : List String)
    (target_type : Option String) (expr_type : String) :
    Except PyErr Unit :=
  match target_type with
  | none => .ok ()
  | some tt =>
    if tt = "auto" then .ok ()
    else if expr_type = "auto" then .ok ()
    else if tt = expr_type then .ok ()
    else if tt = "float" ∧ (expr_type = "int" ∨ expr_type = "float") then .ok ()
    else if Numeric.contains tt ∧ Numeric.contains expr_type then .ok ()
    else errAt line col sourceLines
      ("cannot assign " ++ expr_type ++ " to " ++ tt)

/-- semantic.py `Analyzer._expr` (lines 253-333): type-checks an
expression and returns its type name.  Reads but never modifies the
analyzer state. -/
def analyzeExpr (st : AnalyzerState) : Expr → Except PyErr String
  | .Number v _ _ => .ok (if isFloatLiteral v then "float" else "int")
  | .Str _ _ _ => .ok "string"
  | .Var name line col =>
    match lookupVar st.env_stack name with
    | none => errAt line col st.source_lines
        ("undefined variable \x27" ++ name ++ "\x27")
    | some t => .ok (t.name.getD "auto")
  | .Index name index line col =>
    match lookupVar st.env_stack name with
    | none => errAt line col st.source_lines
        ("variable \x27" ++ name ++ "\x27 not declared")
    | some base =>
      if ¬ isContainerName base.name then
        errAt line col st.source_lines
          ("indexing requires list/array (got " ++ optStr base.name ++ ")")
      else do
        let idx_type ← analyzeExpr st index
        if ¬ Numeric.contains idx_type then
          errAt line col st.source_lines "index must be numeric"
        else
          match base.size, literalIntValue index with
          | some size, some il =>
            if il < 0 ∨ il ≥ size then
              errAt line col st.source_lines
                ("index " ++ toString il ++ " out of bounds for \x27" ++ name
                  ++ "\x27 of size " ++ toString size)
            else .ok "float"
          | _, _ => .ok "float"
  | .Unary op right line col => do
    let t ← analyzeExpr st right
    if op = "+" ∨ op = "-" then
      if ¬ isNumeric t then
        errAt line col st.source_lines
          ("unary " ++ op ++ " requires numeric operand (got " ++ t ++ ")")
      else .ok t
    else if op = "!" ∨ op = "not" then
      if ¬ isLogic t then
        errAt line col st.source_lines
          ("unary " ++ op ++ " requires numeric/bool-like operand (got "
            ++ t ++ ")")
      else .ok "bool"
    else errAt line col st.source_lines ("unhandled unary op " ++ op)
  | .Binary left op right line col => do
    let lt ← analyzeExpr st left
    let rt ← analyzeExpr st right
    if op = "+" ∨ op = "-" ∨ op = "*" ∨ op = "/" ∨ op = "add"
        ∨ op = "subtract" ∨ op = "multiply" ∨ op = "divide" then
      if ¬ isNumeric lt ∨ ¬ isNumeric rt then
        errAt line col st.source_lines
          ("arithmetic \x27" ++ op ++ "\x27 requires numeric operands (got "
            ++ lt ++ ", " ++ rt ++ ")")
      else
        -- Python: `"float" if "float" in (lt, rt) else lt or rt or "int"`
        .ok (if lt = "float" ∨ rt = "float" then "float"
          else if lt ≠ "" then lt else if rt ≠ "" then rt else "int")
    else if op = "==" ∨ op = "!=" then
      if lt = rt then .ok "bool"
      else if isNumeric lt ∧ isNumeric rt then .ok "bool"
      else (errAt line col st.source_lines
        ("incompatible types for equality: " ++ lt ++ " vs " ++ rt))
    else if op = ">" ∨ op = "<" ∨ op = ">=" ∨ op = "<=" then
      if isNumeric lt ∧ isNumeric rt then .ok "bool"
      else (errAt line col st.source_lines
        ("ordering comparison requires numeric operands (got " ++ lt ++ ", "
          ++ rt ++ ")"))
    else if op = "and" ∨ op = "&" ∨ op = "or" ∨ op = "|" then
      if ¬ isLogic lt ∨ ¬ isLogic rt then
        errAt line col st.source_lines
          ("logical \x27" ++ op ++ "\x27 requires numeric/bool-like operands (got "
            ++ lt ++ ", " ++ rt ++ ")")
      else .ok "bool"
    else errAt line col st.source_lines ("unhandled binary op " ++ op)
  | .Power base exponent line col => do
    let bt ← analyzeExpr st base
    let et ← analyzeExpr st exponent
    if ¬ isNumeric bt ∨ ¬ isNumeric et then
      errAt line col st.source_lines
        ("power requires numeric operands (got " ++ bt ++ ", " ++ et ++ ")")
    else .ok (if bt = "float" ∨ et = "float" then "float" else "int")

/-- Python `", ".join(l)`. -/
def joinComma : List String → String
  | [] => ""
  | [x] => x
  | x :: rest => x ++ ", " ++ joinComma rest

/-- Insertion into Python's `sorted(...)` order (lexicographic). -/
def insertSorted (s : String) : List String → List String
  | [] => [s]
  | x :: xs => if s ≤ x then s :: x :: xs else x :: insertSorted s xs

/-- Python `sorted(keys)`. -/
def sortStrings (l : List String) : List String :=
  l.foldr insertSorted []

/-- The argument loop of semantic.py `Analyzer._check_call`
(lines 117-141): type-check each argument, match it to a parameter
(positionally or by name) and record it in `provided`. -/
def checkCallArgs (st : AnalyzerState) (sig : FunctionSig) (fname : String) :
    List Arg → List (String × String) → Nat →
    Except PyErr (List (String × String))
  | [], provided, _ => .ok provided
  | arg :: restArgs, provided, positional_index => do
    let arg_type ← analyzeExpr st arg.value
    match arg.name with
    | some an =>
      match sig.params.find? (fun p => p.name = an) with
      | none =>
        (errAt arg.line arg.col st.source_lines
          ("unknown parameter \x27" ++ an ++ "\x27 for function \x27"
            ++ fname ++ "\x27"))
      | some param =>
        if provided.any (fun q => q.1 = an) then
          (errAt arg.line arg.col st.source_lines
            ("duplicate argument for \x27" ++ an ++ "\x27"))
        else do
          (match param.type with
           | some pt => ensureAssignable arg.line arg.col st.source_lines
               (some pt) arg_type
           | none => .ok ())
          checkCallArgs st sig fname restArgs
            (dictSet provided param.name arg_type) positional_index
    | none =>
      if h : positional_index < sig.params.length then
        let param := sig.params.get ⟨positional_index, h⟩
        do
          (match param.type with
           | some pt => ensureAssignable arg.line arg.col st.source_lines
               (some pt) arg_type
           | none => .ok ())
          checkCallArgs st sig fname restArgs
            (dictSet provided param.name arg_type) (positional_index + 1)
      else
        (errAt arg.line arg.col st.source_lines
          ("too many arguments for \x27" ++ fname ++ "\x27"))

/-- semantic.py `Analyzer._check_call` (lines 112-147). -/
def checkCall (st : AnalyzerState) (name : String) (args : List Arg)
    (line col : Option Nat) : Except PyErr Unit :=
  match dictGet st.functions name with
  | none =>
    let keys := sortStrings (st.functions.map (fun q => q.1))
    let known := if keys.isEmpty then "none" else joinComma keys
    (errAt line col st.source_lines
      ("undefined function \x27" ++ name ++ "\x27. known: " ++ known))
  | some sig => do
    let provided ← checkCallArgs st sig name args [] 0
    match sig.params.find?
        (fun p => ¬ provided.any (fun q => q.1 = p.name) ∧ ¬ p.has_default) with
    | some p =>
      (errAt line col st.source_lines
        ("missing argument for \x27" ++ p.name ++ "\x27 in call to \x27"
          ++ name ++ "\x27"))
    | none => .ok ()

mutual
/-- semantic.py `Analyzer._stmt` (lines 149-250): checks one statement,
returning the updated analyzer state.  The final `Unhandled statement`
fallback of the source is unreachable here because `Stmt` is closed. -/
def analyzeStmt (st : AnalyzerState) : Stmt → Except PyErr AnalyzerState
  | .Declaration name type size line col =>
    match dictGet (env st) name with
    | some _ =>
      (errAt line col st.source_lines
        ("variable \x27" ++ name ++ "\x27 already declared"))
    | none =>
      if (match type with
          | some t => !(AllTypes.contains t)
          | none => false) then
        (errAt line col st.source_lines
          ("unknown type \x27" ++ type.getD "" ++ "\x27"))
      else do
        let literal_size ←
          match size with
          | some sz =>
            if isContainerName type then do
              let size_type ← analyzeExpr st sz
              if ¬ Numeric.contains size_type then
                (errAt line col st.source_lines
                  "container size must be numeric")
              else pure (literalIntValue sz)
            else pure (none : Option Int)
          | none => pure (none : Option Int)
        .ok (envSet st name ⟨some (type.getD "auto"), literal_size⟩)
  | .Input name type _prompt line col =>
    match type with
    | some t =>
      match dictGet (env st) name with
      | some _ =>
        (errAt line col st.source_lines
          ("variable \x27" ++ name ++ "\x27 already declared"))
      | none =>
        if ¬ AllTypes.contains t then
          (errAt line col st.source_lines
            ("unknown type \x27" ++ t ++ "\x27"))
        else .ok (envSet st name ⟨some t, none⟩)
    | none =>
      match lookupVar st.env_stack name with
      | none =>
        (errAt line col st.source_lines
          ("variable \x27" ++ name ++ "\x27 not declared before input"))
      | some _ => .ok st
  | .Assign name e type line col => do
    let t ← analyzeExpr st e
    match type with
    | some nt =>
      if ¬ AllTypes.contains nt then
        (errAt line col st.source_lines
          ("unknown type \x27" ++ nt ++ "\x27"))
      else do
        (match lookupVar st.env_stack name with
         | some existing =>
           if existing.name ≠ none ∧ existing.name ≠ some "auto"
               ∧ existing.name ≠ some nt then
             ensureAssignable line col st.source_lines existing.name nt
           else .ok ()
         | none => .ok ())
        ensureAssignable line col st.source_lines (some nt) t
        .ok (envSet st name ⟨some nt, none⟩)
    | none =>
      match lookupVar st.env_stack name with
      | some existing => do
        ensureAssignable line col st.source_lines existing.name t
        -- `self._env()[node.name] = existing`: the existing TypeInfo
        -- (including any container size) is re-bound in the current scope
        .ok (envSet st name existing)
      | none => .ok (envSet st name ⟨some t, none⟩)
  | .IndexAssign name index e line col =>
    match lookupVar st.env_stack name with
    | none =>
      (errAt line col st.source_lines
        ("variable \x27" ++ name ++ "\x27 not declared"))
    | some base =>
      if ¬ isContainerName base.name then
        (errAt line col st.source_lines
          ("indexing requires list/array (got " ++ optStr base.name ++ ")"))
      else do
        let idx_type ← analyzeExpr st index
        if ¬ Numeric.contains idx_type then
          (errAt line col st.source_lines "index must be numeric")
        else do
          (match base.size, literalIntValue index with
           | some size, some il =>
             if il < 0 ∨ il ≥ size then
               (errAt line col st.source_lines
                 ("index " ++ toString il ++ " out of bounds for \x27" ++ name
                   ++ "\x27 of size " ++ toString size))
             else .ok ()
           | _, _ => .ok ())
          let val_type ← analyzeExpr st e
          if ¬ Numeric.contains val_type then
            (errAt line col st.source_lines
              "container elements must be numeric")
          else .ok st
  | .Print values _line _col => do
    let _ ← values.mapM (analyzeExpr st)
    .ok st
  | .If (.mk fcond fbody _fl _fc) elifs else_body _line _col => do
    let _ ← analyzeExpr st fcond
    -- `self._block(...)` (semantic.py:68-72) inlined: push, walk, pop
    let st1 := popEnv (← analyzeStmts (pushEnv st) fbody)
    let st2 ← analyzeBranches st1 elifs
    match else_body with
    | some b => do .ok (popEnv (← analyzeStmts (pushEnv st2) b))
    | none => .ok st2
  | .While cond body _line _col => do
    let _ ← analyzeExpr st cond
    -- `self._block(body)` inlined
    .ok (popEnv (← analyzeStmts (pushEnv st) body))
  | .For var start stop body line col => do
    let start_t ← analyzeExpr st start
    let end_t ← analyzeExpr st stop
    if ¬ Numeric.contains start_t ∨ ¬ Numeric.contains end_t then
      (errAt line col st.source_lines
        ("for bounds must be numeric (got " ++ start_t ++ ", " ++ end_t ++ ")"))
    else do
      let st1 := envSet (pushEnv st) var ⟨some "int", none⟩
      let st2 ← analyzeStmts st1 body
      .ok (popEnv st2)
  | .Call name args line col => do
    checkCall st name args line col
    .ok st
  | .Return values line col => do
    if st.function_depth ≤ 0 then
      (errAt line col st.source_lines "\x27return\x27 outside function")
    else do
      let _ ← values.mapM (analyzeExpr st)
      .ok st

/-- Sequential analysis of a statement list (the `for stmt in body` loops
of semantic.py). -/
def analyzeStmts (st : AnalyzerState) : List Stmt → Except PyErr AnalyzerState
  | [] => .ok st
  | s :: rest => do
    let st1 ← analyzeStmt st s
    analyzeStmts st1 rest

/-- The `for br in node.elifs` loop of semantic.py lines 220-222. -/
def analyzeBranches (st : AnalyzerState) :
    List IfBranch → Except PyErr AnalyzerState
  | [] => .ok st
  | (.mk cond body _ _) :: rest => do
    let _ ← analyzeExpr st cond
    -- `self._block(br.body)` inlined
    let st1 := popEnv (← analyzeStmts (pushEnv st) body)
    analyzeBranches st1 rest
end

/-- semantic.py `Analyzer._block` (lines 68-72): push a scope, check the
body, pop.  (Inlined at its use sites inside the mutual block above so
that the recursion stays structural; this definition packages it for the
statements of the theorems below.) -/
def analyzeBlock (st : AnalyzerState) (body : List Stmt) :
    Except PyErr AnalyzerState := do
  let st1 ← analyzeStmts (pushEnv st) body
  .ok (popEnv st1)

/-- The parameter loop of semantic.py `Analyzer._register_functions`
(lines 78-96): build the `ParamInfo` list, inferring each parameter's type
from its default expression (checked in a scope seeded with the earlier
parameters) when it has no annotation.  Returns the infos together with
the parameter list as mutated by `p.type = inferred_type`. -/
def registerParams (st : AnalyzerState) :
    List Param → List ParamInfo → List String →
    Except PyErr (List ParamInfo × List Param)
  | [], infos, _ => .ok (infos, [])
  | p :: rest, infos, seen =>
    if seen.contains p.name then
      (errAt p.line p.col st.source_lines
        ("duplicate parameter \x27" ++ p.name ++ "\x27"))
    else do
      let inferred ←
        match p.default with
        | none => pure p.type
        | some defExpr => do
          let st2 := infos.foldl
            (fun s info => envSet s info.name ⟨some (info.type.getD "auto"), none⟩)
            (pushEnv st)
          let default_type ← analyzeExpr st2 defExpr
          -- `_pop_env` then discards the seeded scope, restoring `st`
          match p.type with
          | some it => do
            ensureAssignable p.line p.col st.source_lines (some it) default_type
            pure (some it)
          | none => pure (some default_type)
      let info : ParamInfo := ⟨p.name, inferred, p.default.isSome⟩
      let res ← registerParams st rest (infos ++ [info]) (seen ++ [p.name])
      .ok (res.1, { p with type := inferred } :: res.2)

/-- semantic.py `Analyzer._register_functions` (lines 74-97): register
every function's signature in the global function table before any body is
analyzed.  Returns the function list as mutated by the parameter-type
inference together with the updated state. -/
def registerFunctions (st : AnalyzerState) :
    List Function → Except PyErr (List Function × AnalyzerState)
  | [] => .ok ([], st)
  | fn :: rest =>
    if (dictGet st.functions fn.name).isSome then
      (errAt fn.line fn.col st.source_lines
        ("function \x27" ++ fn.name ++ "\x27 already defined"))
    else do
      let res ← registerParams st fn.params [] []
      let st1 := { st with
        functions := dictSet st.functions fn.name ⟨fn.name, res.1⟩ }
      let res2 ← registerFunctions st1 rest
      .ok ({ fn with params := res.2 } :: res2.1, res2.2)

/-- semantic.py `Analyzer._analyze_function` (lines 99-110): re-walk the
body in a fresh scope seeded with the registered parameters, with
`function_depth` bumped. -/
def analyzeFunction (st : AnalyzerState) (fn : Function) :
    Except PyErr AnalyzerState :=
  match dictGet st.functions fn.name with
  | none => .ok st
  | some sig => do
    let st1 := sig.params.foldl
      (fun s p => envSet s p.name ⟨some (p.type.getD "auto"), none⟩)
      { pushEnv st with function_depth := st.function_depth + 1 }
    let st2 ← analyzeStmts st1 fn.body
    .ok (popEnv { st2 with function_depth := st2.function_depth - 1 })

/-! ### Constant folding (semantic.py lines 365-470)

Python evaluates folds in IEEE double precision (`float(...)`); the
embedding uses exact rationals instead.  The folding *structure* (which
nodes fold, which evaluation failures are swallowed by the
`except Exception` handlers, in-place replacement of children) is
preserved exactly; only the numeric grid of the computed values differs.
`ZeroDivisionError` (division by zero) and `ValueError` (unsupported op /
unparsable lexeme) are modelled as `none`.  Fractional exponents
(irrational results) are conservatively modelled as failures. -/

/-- Value of a digit run. -/
def digitsVal (ds : List Char) : ℚ :=
  ds.foldl (fun a d => a * 10 + ((d.toNat - '0'.toNat : Nat) : ℚ)) 0

/-- Python `float(s)` for the sign/digits/point lexemes this pipeline
produces (exponent forms, `inf`/`nan`, underscores and surrounding
whitespace, which Python also accepts, never occur here). -/
def pyFloat (s : String) : Option ℚ :=
  let cs := s.toList
  let signAndRest : ℚ × List Char :=
    match cs with
    | '-' :: r => (-1, r)
    | '+' :: r => (1, r)
    | _ => (1, cs)
  let sign := signAndRest.1
  let cs1 := signAndRest.2
  let intPart := cs1.takeWhile Char.isDigit
  match cs1.drop intPart.length with
  | [] => if intPart.isEmpty then none else some (sign * digitsVal intPart)
  | '.' :: fr =>
    if fr.all Char.isDigit ∧ ¬ (intPart.isEmpty ∧ fr.isEmpty) then
      some (sign * (digitsVal intPart + digitsVal fr / (10 : ℚ) ^ fr.length))
    else none
  | _ => none

/-- Decimal digits of a rational in `[0, 1)`, most significant first. -/
def fracDigits : ℚ → Nat → List Char
  | _, 0 => []
  | q, n + 1 =>
    let q10 := q * 10
    let d := ⌊q10⌋
    Char.ofNat ('0'.toNat + d.toNat) :: fracDigits (q10 - d) n

/-- Drop trailing `'0'` characters. -/
def trimZeros (ds : List Char) : List Char :=
  (ds.reverse.dropWhile (fun c => c = '0')).reverse

/-- semantic.py `Analyzer._num_to_lex` (lines 459-462): integers print
without a decimal point; non-integers in a decimal form (Python uses
`str(float)`; here the decimal expansion to 17 places, trimmed). -/
def numToLex (q : ℚ) : String :=
  if q.den = 1 then toString q.num
  else
    let sign := if q < 0 then "-" else ""
    let aq := |q|
    let ip := ⌊aq⌋
    let ds := trimZeros (fracDigits (aq - ip) 17)
    sign ++ toString ip ++ "." ++ String.mk (if ds.isEmpty then ['0'] else ds)

/-- semantic.py `Analyzer._eval_binary` (lines 446-457).  `none` models the
exceptions the caller's `except` swallows: `ValueError` from `float(...)`
or the final `raise ValueError("unsupported op ...")`, and
`ZeroDivisionError` from `/` with a zero divisor. -/
def evalBinary (op l r : String) : Option String := do
  let lf ← pyFloat l
  let rf ← pyFloat r
  if op = "+" ∨ op = "add" then some (numToLex (lf + rf))
  else if op = "-" ∨ op = "subtract" then some (numToLex (lf - rf))
  else if op = "*" ∨ op = "multiply" then some (numToLex (lf * rf))
  else if op = "/" ∨ op = "divide" then
    if rf = 0 then none else some (numToLex (lf / rf))
  else none

/-- `float(base) ** float(exponent)` in `_fold_expr`'s `Power` case.
Integral exponents are computed exactly; `0 ** negative` raises
(`ZeroDivisionError`); fractional exponents are modelled as failures. -/
def evalPower (b e : String) : Option String := do
  let bf ← pyFloat b
  let ef ← pyFloat e
  if ef.den = 1 then
    if 0 ≤ ef.num then some (numToLex (bf ^ ef.num.toNat))
    else if bf = 0 then none
    else some (numToLex (bf ^ ef.num))
  else none

/-- `isinstance(e, ast.Number)` with the literal's lexeme. -/
def numValue? : Expr → Option String
  | .Number v _ _ => some v
  | _ => none

/-- semantic.py `Analyzer._fold_expr` (lines 410-444): fold children
first; if both children of a `Binary`/`Power` (or the operand of a `+`/`-`
`Unary`) are then literal `Number`s, replace the node by a literal with
the evaluated lexeme, keeping the node's own line/col; on evaluation
failure keep the node (with folded children).  All other node kinds are
returned unchanged. -/
def foldExpr : Expr → Expr
  | .Binary l op r line col =>
    let lf := foldExpr l
    let rf := foldExpr r
    match numValue? lf, numValue? rf with
    | some lv, some rv =>
      match evalBinary op lv rv with
      | some v => .Number v line col
      | none => .Binary lf op rf line col
    | _, _ => .Binary lf op rf line col
  | .Unary op r line col =>
    let rf := foldExpr r
    match numValue? rf with
    | some rv =>
      if op = "+" ∨ op = "-" then
        match pyFloat rv with
        | some q => .Number (numToLex (if op = "+" then q else -q)) line col
        | none => .Unary op rf line col
      else .Unary op rf line col
    | none => .Unary op rf line col
  | .Power b e line col =>
    let bf := foldExpr b
    let ef := foldExpr e
    match numValue? bf, numValue? ef with
    | some bv, some ev =>
      match evalPower bv ev with
      | some v => .Number v line col
      | none => .Power bf ef line col
    | _, _ => .Power bf ef line col
  | e => e

mutual
/-- semantic.py `Analyzer._fold_stmt` (lines 370-403): folds the
expressions reachable from a statement.  `Declaration`, `Input`,
`IndexAssign` and `Return` are returned untouched, exactly as in the
source. -/
def foldStmt : Stmt → Stmt
  | .Assign name e type line col => .Assign name (foldExpr e) type line col
  | .Print values line col => .Print (values.map foldExpr) line col
  | .Call name args line col =>
    .Call name
      (args.map (fun a => ⟨a.name, foldExpr a.value, a.line, a.col⟩)) line col
  | .If (.mk fcond fbody fl fc) elifs else_body line col =>
    .If (.mk (foldExpr fcond) (foldStmts fbody) fl fc) (foldBranches elifs)
      (match else_body with
       | some b => some (foldStmts b)
       | none => none) line col
  | .While cond body line col => .While (foldExpr cond) (foldStmts body) line col
  | .For v s e body line col =>
    .For v (foldExpr s) (foldExpr e) (foldStmts body) line col
  | s => s

def foldStmts : List Stmt → List Stmt
  | [] => []
  | s :: rest => foldStmt s :: foldStmts rest

def foldBranches : List IfBranch → List IfBranch
  | [] => []
  | (.mk cond body line col) :: rest =>
    .mk (foldExpr cond) (foldStmts body) line col :: foldBranches rest
end

/-- semantic.py `Analyzer._fold_function` (lines 405-408). -/
def foldFunction (fn : Function) : Function :=
  { fn with body := foldStmts fn.body }

/-- semantic.py `Analyzer._fold_program` (lines 366-368). -/
def foldProgram (p : Program) : Program :=
  ⟨p.functions.map foldFunction, p.statements.map foldStmt, p.line, p.col⟩

/-- semantic.py `Analyzer.analyze` (lines 59-65): register all function
signatures, then analyze every function body, then the top-level
statements, then constant-fold the (already mutated) program in place.
Returns the folded program together with the final analyzer state. -/
def analyze (st : AnalyzerState) (program : Program) :
    Except PyErr (Program × AnalyzerState) := do
  let (fns, st1) ← registerFunctions st program.functions
  let st2 ← fns.foldlM analyzeFunction st1
  let st3 ← analyzeStmts st2 program.statements
  let p2 : Program := ⟨fns, program.statements, program.line, program.col⟩
  .ok (foldProgram p2, st3)

/-! ## Parser (parser.py)

The recursive-descent parser is embedded with an explicit token cursor
(`PState`, mirroring `self.tokens` / `self.current`) and a fuel parameter
bounding recursion depth; `PyErr.fuelExhausted` never occurs for the
(ample) fuel used by `parse`.  parser.py refers to `lexer.TokenKind`
members `LBRACKET`, `RBRACKET` and `COLON` that the enum does not define;
each such access goes through `TokenKind.member?` and raises
`AttributeError` exactly where Python would. -/

def Expr.line : Expr → Option Nat
  | .Number _ l _ | .Str _ l _ | .Var _ l _ | .Unary _ _ l _
  | .Binary _ _ _ l _ | .Power _ _ l _ | .Index _ _ l _ => l

def Expr.col : Expr → Option Nat
  | .Number _ _ c | .Str _ _ c | .Var _ _ c | .Unary _ _ _ c
  | .Binary _ _ _ _ c | .Power _ _ _ c | .Index _ _ _ c => c

def Stmt.line : Stmt → Option Nat
  | .Assign _ _ _ l _ | .IndexAssign _ _ _ l _ | .Declaration _ _ _ l _
  | .Input _ _ _ l _ | .Print _ l _ | .Return _ l _ | .If _ _ _ l _
  | .While _ _ l _ | .For _ _ _ _ l _ | .Call _ _ l _ => l

def Stmt.col : Stmt → Option Nat
  | .Assign _ _ _ _ c | .IndexAssign _ _ _ _ c | .Declaration _ _ _ _ c
  | .Input _ _ _ _ c | .Print _ _ c | .Return _ _ c | .If _ _ _ _ c
  | .While _ _ _ c | .For _ _ _ _ _ c | .Call _ _ _ c => c

/-- parser.py `Parser.__init__` state: the token list and cursor. -/
structure PState where
  tokens : List Token
  current : Nat
  deriving Repr

/-- Placeholder for out-of-range indexing; unreachable on scan output,
which always ends with the EOF sentinel. -/
def dummyTok : Token := ⟨.EOF, "", 0, 0⟩

/-- parser.py `_peek` (lines 749-750): `tokens[current]`. -/
def PState.peek (ps : PState) : Token := ps.tokens.getD ps.current dummyTok

/-- parser.py `_is_at_end` (lines 755-756). -/
def PState.isAtEnd (ps : PState) : Bool := ps.peek.kind == .EOF

/-- parser.py `_previous` (lines 752-753): `tokens[current-1]`. -/
def PState.previous (ps : PState) : Token :=
  ps.tokens.getD (ps.current - 1) dummyTok

/-- parser.py `_advance` (lines 744-747). -/
def PState.advance (ps : PState) : Token × PState :=
  let ps1 := if ps.isAtEnd then ps else { ps with current := ps.current + 1 }
  (ps1.previous, ps1)

/-- parser.py `_check_kw` (lines 645-649). -/
def checkKw (ps : PState) (kw : String) : Bool :=
  !ps.isAtEnd && ps.peek.kind == .KEYWORD && ps.peek.lexeme == kw

/-- parser.py `_check_kind` (lines 675-678). -/
def checkKind (ps : PState) (kind : TokenKind) : Bool :=
  !ps.isAtEnd && ps.peek.kind == kind

/-- parser.py `_match_kw` (lines 604-608). -/
def matchKw (ps : PState) (kw : String) : Bool × PState :=
  if checkKw ps kw then (true, (ps.advance).2) else (false, ps)

/-- parser.py `_match_op` / `_match_kind` (lines 610-620), which are
identical. -/
def matchKind (ps : PState) (kind : TokenKind) : Bool × PState :=
  if checkKind ps kind then (true, (ps.advance).2) else (false, ps)

/-- parser.py `_consume_kw` (lines 622-625).  Note: the raised ParseError
carries only `msg` — no line/col. -/
def consumeKw (ps : PState) (kw msg : String) : Except PyErr PState :=
  match matchKw ps kw with
  | (true, ps1) => .ok ps1
  | (false, _) => .error (.parseError msg)

/-- parser.py `_consume` (lines 634-638); bare `msg`, no line/col. -/
def consumeTk (ps : PState) (kind : TokenKind) (msg : String) :
    Except PyErr PState :=
  if checkKind ps kind then .ok (ps.advance).2 else .error (.parseError msg)

/-- parser.py `_consume_ident` (lines 640-643); bare `msg`. -/
def consumeIdent (ps : PState) (msg : String) : Except PyErr (Token × PState) :=
  if checkKind ps .IDENT then .ok ps.advance else .error (.parseError msg)

/-- parser.py `_consume_function_name` (lines 651-656); bare message. -/
def consumeFunctionName (ps : PState) : Except PyErr (Token × PState) :=
  if checkKind ps .STRING then .ok ps.advance
  else if checkKind ps .IDENT then .ok ps.advance
  else .error (.parseError "Expected function name")

/-- parser.py `_consume_any_kw` (lines 658-662); bare `msg`. -/
def consumeAnyKw (ps : PState) (kws : List String) (msg : String) :
    Except PyErr PState :=
  match kws with
  | [] => .error (.parseError msg)
  | kw :: rest =>
    match matchKw ps kw with
    | (true, ps1) => .ok ps1
    | (false, _) => consumeAnyKw ps rest msg

/-- parser.py `_peek_next_is` (lines 664-667). -/
def peekNextIs (ps : PState) (kind : TokenKind) : Bool :=
  if ps.current + 1 ≥ ps.tokens.length then false
  else (ps.tokens.getD (ps.current + 1) dummyTok).kind == kind

/-- parser.py `_next_kw_in` (lines 669-673). -/
def nextKwIn (ps : PState) (kws : List String) : Bool :=
  if ps.current + 1 ≥ ps.tokens.length then false
  else
    let nxt := ps.tokens.getD (ps.current + 1) dummyTok
    nxt.kind == .KEYWORD && kws.contains nxt.lexeme

/-- parser.py `_is_expr_start` (lines 680-702). -/
def isExprStart (ps : PState) : Bool :=
  if ps.isAtEnd then false
  else
    let t := ps.peek
    (t.kind == .NUMBER || t.kind == .STRING || t.kind == .IDENT
      || t.kind == .LPAREN || t.kind == .PLUS || t.kind == .MINUS)
    || (t.kind == .KEYWORD
      && ["add", "subtract", "multiply", "divide", "power", "not"].contains
        t.lexeme)

/-- parser.py `_check_pair_end` (lines 704-712): non-consuming two-token
lookahead for `end <kind>`. -/
def checkPairEnd (ps : PState) (kind : Option String) : Bool :=
  if !checkKw ps "end" then false
  else
    match kind with
    | none => true
    | some k =>
      if ps.current + 1 ≥ ps.tokens.length then false
      else
        let nxt := ps.tokens.getD (ps.current + 1) dummyTok
        nxt.kind == .KEYWORD && nxt.lexeme == k

/-- parser.py `_consume_pair_end` (lines 714-716). -/
def consumePairEnd (ps : PState) (kind : String) : Except PyErr PState := do
  let ps1 ← consumeKw ps "end" ("Expected \x27end\x27 to close " ++ kind)
  consumeKw ps1 kind ("Expected \x27" ++ kind ++ "\x27 after end")

/-- parser.py `_previous_is_kw` (lines 718-722). -/
def previousIsKw (ps : PState) (kw : String) : Bool :=
  if ps.current == 0 then false
  else
    let t := ps.tokens.getD (ps.current - 1) dummyTok
    t.kind == .KEYWORD && t.lexeme == kw

/-- parser.py `_previous_two_keywords_were_else_if` (lines 724-734). -/
def prevTwoKwElseIf (ps : PState) : Bool :=
  if ps.current < 2 then false
  else
    let t1 := ps.tokens.getD (ps.current - 2) dummyTok
    let t2 := ps.tokens.getD (ps.current - 1) dummyTok
    t1.kind == .KEYWORD && t2.kind == .KEYWORD
      && t1.lexeme == "else" && t2.lexeme == "if"

/-- parser.py `_try_keywords` (lines 736-742): speculative multi-keyword
match with rollback. -/
def tryKeywords (ps : PState) : List String → Bool × PState
  | [] => (true, ps)
  | kw :: rest =>
    match matchKw ps kw with
    | (true, ps1) =>
      match tryKeywords ps1 rest with
      | (true, ps2) => (true, ps2)
      | (false, _) => (false, ps)
    | (false, _) => (false, ps)

/-- parser.py `_type_name` (lines 627-632). -/
def typeName (ps : PState) : Except PyErr (String × PState) :=
  typeNameGo ps ["int", "float", "string", "bool", "list", "array"]
where
  typeNameGo (ps : PState) : List String → Except PyErr (String × PState)
    | [] =>
      let tok := ps.peek
      .error (.parseError ("Expected type at " ++ toString tok.line ++ ":"
        ++ toString tok.col))
    | t :: rest =>
      match matchKw ps t with
      | (true, ps1) => .ok (t, ps1)
      | (false, _) => typeNameGo ps rest

/-- parser.py `_comparison_op` (lines 371-399): symbolic operators, then
the `is`-introduced keyword phrases, tried longest-first with rollback. -/
def comparisonOp (ps : PState) : Except PyErr (String × PState) :=
  match matchKind ps .EQEQ with
  | (true, ps1) => .ok ("==", ps1)
  | (false, _) =>
  match matchKind ps .NEQ with
  | (true, ps1) => .ok ("!=", ps1)
  | (false, _) =>
  match matchKind ps .GTE with
  | (true, ps1) => .ok (">=", ps1)
  | (false, _) =>
  match matchKind ps .LTE with
  | (true, ps1) => .ok ("<=", ps1)
  | (false, _) =>
  match matchKind ps .GT with
  | (true, ps1) => .ok (">", ps1)
  | (false, _) =>
  match matchKind ps .LT with
  | (true, ps1) => .ok ("<", ps1)
  | (false, _) =>
  match matchKw ps "is" with
  | (true, ps1) => comparisonPhrases ps1
      [(["greater", "than", "or", "equal", "to"], ">="),
       (["less", "than", "or", "equal", "to"], "<="),
       (["greater", "or", "equal", "to"], ">="),
       (["less", "or", "equal", "to"], "<="),
       (["greater", "than"], ">"),
       (["less", "than"], "<"),
       (["equal", "to"], "=="),
       (["not", "equal", "to"], "!=")]
  | (false, _) =>
    let tok := ps.peek
    .error (.parseError ("Expected comparison operator at "
      ++ toString tok.line ++ ":" ++ toString tok.col))
where
  comparisonPhrases (ps : PState) :
      List (List String × String) → Except PyErr (String × PState)
    | [] =>
      let tok := ps.peek
      .error (.parseError ("Expected comparison operator at "
        ++ toString tok.line ++ ":" ++ toString tok.col))
    | (seq, op) :: rest =>
      match tryKeywords ps seq with
      | (true, ps1) => .ok (op, ps1)
      | (false, _) => comparisonPhrases ps rest

mutual

/-- parser.py `Parser.parse` main loop (lines 45-52). -/
def parseLoop : Nat → PState → List Function → List Stmt →
    Except PyErr (List Function × List Stmt × PState)
  | 0, _, _, _ => .error .fuelExhausted
  | fuel + 1, ps, fns, stmts =>
    if ps.isAtEnd then .ok (fns, stmts, ps)
    else if checkKw ps "function" || checkKw ps "func" then do
      let (fn, ps1) ← functionDef fuel ps
      parseLoop fuel ps1 (fns ++ [fn]) stmts
    else do
      let (s, ps1) ← statement fuel ps
      parseLoop fuel ps1 fns (stmts ++ [s])

/-- parser.py `Parser._statement` (lines 65-174): the statement
dispatcher. -/
def statement : Nat → PState → Except PyErr (Stmt × PState)
  | 0, _ => .error .fuelExhausted
  | fuel + 1, ps =>
    match matchKw ps "add" with
    | (true, ps1) => inplaceUpdate fuel ps1 "add"
    | (false, _) =>
    match matchKw ps "sub" with
    | (true, ps1) => inplaceUpdate fuel ps1 "sub"
    | (false, _) =>
    match matchKw ps "subtract" with
    | (true, ps1) => inplaceUpdate fuel ps1 "sub"
    | (false, _) =>
    match matchKw ps "make" with
    | (true, ps1) => do
      let (name_tok, ps2) ← consumeIdent ps1 "Expected identifier after \x27make\x27"
      match matchKw ps2 "as" with
      | (true, ps3) => do
        let (typ, ps4) ← typeName ps3
        if typ = "list" ∨ typ = "array" then
          match matchKw ps4 "of" with
          | (true, ps5) => do
            let ps6 ← consumeKw ps5 "size" "Expected \x27size\x27 after \x27of\x27"
            let (size_expr, ps7) ← expression fuel ps6
            .ok (.Declaration name_tok.lexeme (some typ) (some size_expr)
              (some name_tok.line) (some name_tok.col), ps7)
          | (false, _) =>
            .ok (.Declaration name_tok.lexeme (some typ) none
              (some name_tok.line) (some name_tok.col), ps4)
        else
          .ok (.Declaration name_tok.lexeme (some typ) none
            (some name_tok.line) (some name_tok.col), ps4)
      | (false, _) =>
        .ok (.Declaration name_tok.lexeme none none
          (some name_tok.line) (some name_tok.col), ps2)
    | (false, _) =>
    match matchKw ps "call" with
    | (true, ps1) => callStatement fuel ps1
    | (false, _) =>
    match matchKw ps "return" with
    | (true, ps1) => returnStatement fuel ps1 none
    | (false, _) =>
    match matchKw ps "input" with
    | (true, ps1) => do
      let (prompt, ps2) :=
        if checkKind ps1 .STRING then
          let (prompt_tok, ps2) := ps1.advance
          (some prompt_tok.lexeme, ps2)
        else (none, ps1)
      let (name_tok, ps3) ← consumeIdent ps2 "Expected identifier after \x27input\x27"
      match matchKw ps3 "as" with
      | (true, ps4) => do
        let (typ, ps5) ← typeName ps4
        .ok (.Input name_tok.lexeme (some typ) prompt
          (some name_tok.line) (some name_tok.col), ps5)
      | (false, _) =>
        .ok (.Input name_tok.lexeme none prompt
          (some name_tok.line) (some name_tok.col), ps3)
    | (false, _) =>
    match matchKw ps "set" with
    | (true, ps1) =>
      if checkKw ps1 "return" then do
        let (ret_kw, ps2) := ps1.advance
        let ps3 ← consumeKw ps2 "to" "Expected \x27to\x27 after \x27set return\x27"
        returnStatement fuel ps3 (some ret_kw)
      else do
        let (name_tok, ps2) ← consumeIdent ps1 "Expected identifier after \x27set\x27"
        -- parser.py:113 `self._match_op(lexer.TokenKind.LBRACKET)`:
        -- the TokenKind enum defines no LBRACKET member, so Python raises
        -- AttributeError here before anything else happens.
        match TokenKind.member? "LBRACKET" with
        | none => .error (.attributeError "LBRACKET")
        | some lb =>
          let (hasIdx, ps3) := matchKind ps2 lb
          if hasIdx then do
            let (idx_expr, ps4) ← expression fuel ps3
            let ps5 ←
              match TokenKind.member? "RBRACKET" with
              | none => .error (.attributeError "RBRACKET")
              | some rb => consumeTk ps4 rb "Expected \x27]\x27 after index"
            let ps6 ← consumeKw ps5 "to" "Expected \x27to\x27 in assignment"
            let (e, ps7) ← assignmentRhs fuel ps6 name_tok
            .ok (.IndexAssign name_tok.lexeme idx_expr e
              (some name_tok.line) (some name_tok.col), ps7)
          else do
            let (var_type, ps4) ←
              match TokenKind.member? "COLON" with
              | none => .error (.attributeError "COLON")
              | some colonK =>
                match matchKind ps3 colonK with
                | (true, ps4) => do
                  let (t, ps5) ← typeName ps4
                  .ok ((some t : Option String), ps5)
                | (false, _) => .ok ((none : Option String), ps3)
            let ps5 ← consumeKw ps4 "to" "Expected \x27to\x27 in assignment"
            let (e, ps6) ← assignmentRhs fuel ps5 name_tok
            .ok (.Assign name_tok.lexeme e var_type
              (some name_tok.line) (some name_tok.col), ps6)
    | (false, _) =>
    match matchKw ps "print" with
    | (true, ps1) => do
      let (first_expr, ps2) ← expression fuel ps1
      let (values, ps3) ← valuesLoop fuel ps2 [first_expr]
      .ok (.Print values first_expr.line first_expr.col, ps3)
    | (false, _) =>
    match matchKw ps "if" with
    | (true, ps1) => ifStatement fuel ps1
    | (false, _) =>
    match matchKw ps "while" with
    | (true, ps1) => do
      let (cond, ps2) ← condition fuel ps1
      let ps3 ← consumeKw ps2 "do" "Expected \x27do\x27 after while condition"
      let (body, ps4) ← blockUntilEnd fuel ps3 "while"
      .ok (.While cond body cond.line cond.col, ps4)
    | (false, _) =>
    match matchKw ps "for" with
    | (true, ps1) => do
      let (var_tok, ps2) ← consumeIdent ps1 "Expected loop variable after \x27for\x27"
      let ps3 ← consumeKw ps2 "from" "Expected \x27from\x27 in for loop"
      let (start, ps4) ← expression fuel ps3
      let ps5 ← consumeKw ps4 "to" "Expected \x27to\x27 in for loop"
      let (stop, ps6) ← expression fuel ps5
      let ps7 ← consumeKw ps6 "do" "Expected \x27do\x27 after for header"
      let (body, ps8) ← blockUntilEnd fuel ps7 "for"
      .ok (.For var_tok.lexeme start stop body
        (some var_tok.line) (some var_tok.col), ps8)
    | (false, _) =>
      let tok := ps.peek
      .error (.parseError ("Unexpected token " ++ tok.lexeme ++ " at "
        ++ toString tok.line ++ ":" ++ toString tok.col))

/-- The comma-or-adjacent expression-list loop shared verbatim by `print`
(parser.py:139-146) and `return` (parser.py:592-599). -/
def valuesLoop : Nat → PState → List Expr → Except PyErr (List Expr × PState)
  | 0, _, _ => .error .fuelExhausted
  | fuel + 1, ps, acc =>
    match matchKind ps .COMMA with
    | (true, ps1) => do
      let (e, ps2) ← expression fuel ps1
      valuesLoop fuel ps2 (acc ++ [e])
    | (false, _) =>
      if isExprStart ps then do
        let (e, ps1) ← expression fuel ps
        valuesLoop fuel ps1 (acc ++ [e])
      else .ok (acc, ps)

/-- parser.py `Parser._inplace_update` (lines 511-542). -/
def inplaceUpdate : Nat → PState → String → Except PyErr (Stmt × PState)
  | 0, _, _ => .error .fuelExhausted
  | fuel + 1, ps, kind => do
    let (value, ps1) ← expression fuel ps
    if kind = "add" then do
      let ps2 ← consumeKw ps1 "to" "Expected \x27to\x27 after add expression"
      let (target_tok, ps3) ← consumeIdent ps2 "Expected target variable after \x27to\x27"
      let e := Expr.Binary
        (.Var target_tok.lexeme (some target_tok.line) (some target_tok.col))
        "+" value (some target_tok.line) (some target_tok.col)
      .ok (.Assign target_tok.lexeme e none
        (some target_tok.line) (some target_tok.col), ps3)
    else do
      let ps2 ← consumeKw ps1 "from" "Expected \x27from\x27 after sub expression"
      let (target_tok, ps3) ← consumeIdent ps2 "Expected target variable after \x27from\x27"
      let e := Expr.Binary
        (.Var target_tok.lexeme (some target_tok.line) (some target_tok.col))
        "-" value (some target_tok.line) (some target_tok.col)
      .ok (.Assign target_tok.lexeme e none
        (some target_tok.line) (some target_tok.col), ps3)

/-- parser.py `Parser._assignment_rhs` (lines 544-585): speculative
`add X to NAME` / `sub X from NAME` phrases with cursor rollback, falling
back to an ordinary expression. -/
def assignmentRhs : Nat → PState → Token → Except PyErr (Expr × PState)
  | 0, _, _ => .error .fuelExhausted
  | fuel + 1, ps, lhs_tok =>
    if checkKw ps "add" then do
      let (_, ps1) := ps.advance
      let (value, ps2) ← expression fuel ps1
      match matchKw ps2 "to" with
      | (true, ps3) => do
        let (target_tok, ps4) ← consumeIdent ps3 "Expected target variable after \x27to\x27"
        .ok (Expr.Binary
          (.Var target_tok.lexeme (some target_tok.line) (some target_tok.col))
          "+" value (some lhs_tok.line) (some lhs_tok.col), ps4)
      | (false, _) => assignmentRhsSub fuel ps lhs_tok
    else assignmentRhsSub fuel ps lhs_tok

/-- The `sub`/`subtract` phrase and fallthrough of `_assignment_rhs`
(parser.py lines 565-585); entered with the cursor rolled back to `save`. -/
def assignmentRhsSub : Nat → PState → Token → Except PyErr (Expr × PState)
  | 0, _, _ => .error .fuelExhausted
  | fuel + 1, ps, lhs_tok =>
    if checkKw ps "sub" || checkKw ps "subtract" then do
      let (_, ps1) := ps.advance
      let (value, ps2) ← expression fuel ps1
      match matchKw ps2 "from" with
      | (true, ps3) => do
        let (target_tok, ps4) ← consumeIdent ps3 "Expected target variable after \x27from\x27"
        .ok (Expr.Binary
          (.Var target_tok.lexeme (some target_tok.line) (some target_tok.col))
          "-" value (some lhs_tok.line) (some lhs_tok.col), ps4)
      | (false, _) => expression fuel ps
    else expression fuel ps

/-- parser.py `Parser._return_statement` (lines 587-601). -/
def returnStatement : Nat → PState → Option Token → Except PyErr (Stmt × PState)
  | 0, _, _ => .error .fuelExhausted
  | fuel + 1, ps, start_tok => do
    let (values, ps1) ←
      if isExprStart ps then do
        let (first, ps1) ← expression fuel ps
        valuesLoop fuel ps1 [first]
      else .ok ([], ps)
    let tok := match start_tok with
      | some t => t
      | none => ps1.previous
    .ok (.Return values (some tok.line) (some tok.col), ps1)

/-- parser.py `Parser._call_statement` (lines 237-274).  The
`self._match_op(lexer.TokenKind.COLON)` on line 243 raises
`AttributeError`: the enum has no COLON member. -/
def callStatement : Nat → PState → Except PyErr (Stmt × PState)
  | 0, _ => .error .fuelExhausted
  | fuel + 1, ps => do
    let (name_tok, ps1) ← consumeFunctionName ps
    let ps2 ← consumeKw ps1 "with" "Expected \x27with\x27 after function name"
    let ps3 ← consumeAnyKw ps2 ["arguments", "aguments"]
      "Expected \x27arguments\x27 after \x27with\x27"
    match TokenKind.member? "COLON" with
    | none => .error (.attributeError "COLON")
    | some colonK => do
      let (_, ps4) := matchKind ps3 colonK
      let ps5 ← consumeTk ps4 .LPAREN "Expected \x27(\x27 after arguments:"
      let (args, ps6) ←
        if checkKind ps5 .RPAREN then .ok (([] : List Arg), ps5)
        else callArgsLoop fuel ps5 []
      let ps7 ← consumeTk ps6 .RPAREN "Expected \x27)\x27 after call arguments"
      .ok (.Call name_tok.lexeme args
        (some name_tok.line) (some name_tok.col), ps7)

/-- The argument loop of `_call_statement` (parser.py lines 247-270). -/
def callArgsLoop : Nat → PState → List Arg → Except PyErr (List Arg × PState)
  | 0, _, _ => .error .fuelExhausted
  | fuel + 1, ps, acc => do
    let (arg, ps1) ←
      if checkKind ps .IDENT && peekNextIs ps .EQ then do
        let (arg_name_tok, ps1) := ps.advance
        let ps2 ← consumeTk ps1 .EQ "Expected \x27=\x27 after arg name"
        let (value, ps3) ← expression fuel ps2
        .ok ((⟨some arg_name_tok.lexeme, value,
          some arg_name_tok.line, some arg_name_tok.col⟩ : Arg), ps3)
      else do
        let (value, ps1) ← expression fuel ps
        .ok ((⟨none, value, value.line, value.col⟩ : Arg), ps1)
    match matchKind ps1 .COMMA with
    | (true, ps2) => callArgsLoop fuel ps2 (acc ++ [arg])
    | (false, _) => .ok (acc ++ [arg], ps1)

/-- parser.py `Parser._function_def` (lines 176-219). -/
def functionDef : Nat → PState → Except PyErr (Function × PState)
  | 0, _ => .error .fuelExhausted
  | fuel + 1, ps => do
    -- `start_kw = "function" if self._match_kw("function") else "func"`
    -- (the `func` keyword is not consumed in the else case)
    let (start_kw, ps1) :=
      match matchKw ps "function" with
      | (true, ps1) => ("function", ps1)
      | (false, _) => ("func", ps)
    let (name_tok, ps2) ← consumeFunctionName ps1
    let ps3 ←
      match matchKw ps2 "arguments" with
      | (true, ps3) =>
        (match TokenKind.member? "COLON" with
         | none => .error (.attributeError "COLON")
         | some colonK => .ok (matchKind ps3 colonK).2)
      | (false, _) =>
        match matchKw ps2 "aguments" with
        | (true, ps3) =>
          (match TokenKind.member? "COLON" with
           | none => .error (.attributeError "COLON")
           | some colonK => .ok (matchKind ps3 colonK).2)
        | (false, _) => .ok ps2
    let ps4 ← consumeTk ps3 .LPAREN "Expected \x27(\x27 after function name"
    let (params, ps5) ←
      if checkKind ps4 .RPAREN then .ok (([] : List Param), ps4)
      else paramsLoop fuel ps4 []
    let ps6 ← consumeTk ps5 .RPAREN "Expected \x27)\x27 after parameters"
    let (body, ps7) ← functionBodyLoop fuel ps6 []
    let ps8 ← functionTerminator fuel ps7 start_kw
    .ok (⟨name_tok.lexeme, params, body,
      some name_tok.line, some name_tok.col⟩, ps8)

/-- The parameter-list loop of `_function_def` (parser.py lines 184-189). -/
def paramsLoop : Nat → PState → List Param → Except PyErr (List Param × PState)
  | 0, _, _ => .error .fuelExhausted
  | fuel + 1, ps, acc => do
    let (p, ps1) ← paramDecl fuel ps
    match matchKind ps1 .COMMA with
    | (true, ps2) => paramsLoop fuel ps2 (acc ++ [p])
    | (false, _) => .ok (acc ++ [p], ps1)

/-- parser.py `Parser._param_decl` (lines 221-235).  The COLON reference
on line 225 raises `AttributeError` (missing enum member). -/
def paramDecl : Nat → PState → Except PyErr (Param × PState)
  | 0, _ => .error .fuelExhausted
  | fuel + 1, ps => do
    let (name_tok, ps1) ← consumeIdent ps "Expected parameter name"
    let (param_type, ps2) ←
      match TokenKind.member? "COLON" with
      | none => .error (.attributeError "COLON")
      | some colonK =>
        match matchKind ps1 colonK with
        | (true, ps2) => do
          let (t, ps3) ← typeName ps2
          .ok ((some t : Option String), ps3)
        | (false, _) => .ok ((none : Option String), ps1)
    let (default, ps3) ←
      match matchKind ps2 .EQ with
      | (true, ps3) => do
        let (e, ps4) ← expression fuel ps3
        .ok ((some e : Option Expr), ps4)
      | (false, _) => .ok ((none : Option Expr), ps2)
    .ok (⟨name_tok.lexeme, param_type, default,
      some name_tok.line, some name_tok.col⟩, ps3)

/-- The body loop of `_function_def` (parser.py lines 192-198). -/
def functionBodyLoop : Nat → PState → List Stmt →
    Except PyErr (List Stmt × PState)
  | 0, _, _ => .error .fuelExhausted
  | fuel + 1, ps, acc =>
    if ps.isAtEnd then .ok (acc, ps)
    else if checkKw ps "end_function" || checkKw ps "end_func" then .ok (acc, ps)
    else if checkKw ps "end" && nextKwIn ps ["function", "func"] then .ok (acc, ps)
    else do
      let (s, ps1) ← statement fuel ps
      functionBodyLoop fuel ps1 (acc ++ [s])

/-- The terminator handling of `_function_def` (parser.py lines 200-211). -/
def functionTerminator : Nat → PState → String → Except PyErr PState
  | 0, _, _ => .error .fuelExhausted
  | _ + 1, ps, start_kw =>
    match matchKw ps "end_function" with
    | (true, ps1) => .ok ps1
    | (false, _) =>
    match matchKw ps "end_func" with
    | (true, ps1) => .ok ps1
    | (false, _) =>
    match matchKw ps "end" with
    | (true, ps1) =>
      (match matchKw ps1 "function" with
       | (true, ps2) => .ok ps2
       | (false, _) =>
         match matchKw ps1 "func" with
         | (true, ps2) => .ok ps2
         | (false, _) =>
           let end_name := if start_kw = "function" then "function" else "func"
           consumeKw ps1 end_name ("Expected \x27" ++ end_name ++ "\x27 after end"))
    | (false, _) =>
      let tok := ps.peek
      .error (.parseError ("Expected function terminator at "
        ++ toString tok.line ++ ":" ++ toString tok.col))

/-- parser.py `Parser._if_statement` (lines 276-307). -/
def ifStatement : Nat → PState → Except PyErr (Stmt × PState)
  | 0, _ => .error .fuelExhausted
  | fuel + 1, ps => do
    let (cond, ps1) ← condition fuel ps
    let ps2 ← consumeKw ps1 "then" "Expected \x27then\x27 after if condition"
    let (first_body, ps3) ← blockUntilElseOrEnd fuel ps2 []
    let first_branch := IfBranch.mk cond first_body cond.line cond.col
    let (elifs, ps4) ← elifLoop fuel ps3 []
    let (else_body, ps5) ←
      if prevTwoKwElseIf ps4 then .ok ((none : Option (List Stmt)), ps4)
      else if previousIsKw ps4 "else" then do
        let (b, ps5) ← blockUntilEndIf fuel ps4 []
        .ok (some b, ps5)
      else .ok ((none : Option (List Stmt)), ps4)
    let (else_body2, ps6) ←
      match else_body with
      | some b => .ok ((some b : Option (List Stmt)), ps5)
      | none =>
        match matchKw ps5 "else" with
        | (true, ps6) => do
          let (b, ps7) ← blockUntilEndIf fuel ps6 []
          .ok ((some b : Option (List Stmt)), ps7)
        | (false, _) => .ok ((none : Option (List Stmt)), ps5)
    let ps7 ← consumePairEnd ps6 "if"
    .ok (.If first_branch elifs else_body2 first_branch.line first_branch.col,
      ps7)

/-- The `while self._match_kw("else") and self._match_kw("if")` loop of
`_if_statement` (parser.py lines 286-290).  When `else` matches but `if`
does not, the loop exits with `else` consumed (the `_previous_is_kw`
check in the caller then detects this). -/
def elifLoop : Nat → PState → List IfBranch →
    Except PyErr (List IfBranch × PState)
  | 0, _, _ => .error .fuelExhausted
  | fuel + 1, ps, acc =>
    match matchKw ps "else" with
    | (false, _) => .ok (acc, ps)
    | (true, ps1) =>
      match matchKw ps1 "if" with
      | (false, _) => .ok (acc, ps1)
      | (true, ps2) => do
        let (cond, ps3) ← condition fuel ps2
        let ps4 ← consumeKw ps3 "then" "Expected \x27then\x27 after else if condition"
        let (body, ps5) ← blockUntilElseOrEnd fuel ps4 []
        elifLoop fuel ps5 (acc ++ [IfBranch.mk cond body cond.line cond.col])

/-- parser.py `Parser._block_until_else_or_end` (lines 309-315). -/
def blockUntilElseOrEnd : Nat → PState → List Stmt →
    Except PyErr (List Stmt × PState)
  | 0, _, _ => .error .fuelExhausted
  | fuel + 1, ps, acc =>
    if ps.isAtEnd then .ok (acc, ps)
    else if checkKw ps "else" || checkPairEnd ps (some "if") then .ok (acc, ps)
    else do
      let (s, ps1) ← statement fuel ps
      blockUntilElseOrEnd fuel ps1 (acc ++ [s])

/-- parser.py `Parser._block_until_end_if` (lines 317-323). -/
def blockUntilEndIf : Nat → PState → List Stmt →
    Except PyErr (List Stmt × PState)
  | 0, _, _ => .error .fuelExhausted
  | fuel + 1, ps, acc =>
    if ps.isAtEnd then .ok (acc, ps)
    else if checkPairEnd ps (some "if") then .ok (acc, ps)
    else do
      let (s, ps1) ← statement fuel ps
      blockUntilEndIf fuel ps1 (acc ++ [s])

/-- parser.py `Parser._block_until_end` (lines 325-332). -/
def blockUntilEnd : Nat → PState → String → Except PyErr (List Stmt × PState)
  | 0, _, _ => .error .fuelExhausted
  | fuel + 1, ps, kind => do
    let (stmts, ps1) ← blockUntilEndGo fuel ps kind []
    let ps2 ← consumePairEnd ps1 kind
    .ok (stmts, ps2)

/-- The collection loop of `_block_until_end`. -/
def blockUntilEndGo : Nat → PState → String → List Stmt →
    Except PyErr (List Stmt × PState)
  | 0, _, _, _ => .error .fuelExhausted
  | fuel + 1, ps, kind, acc =>
    if ps.isAtEnd then .ok (acc, ps)
    else if checkPairEnd ps (some kind) then .ok (acc, ps)
    else do
      let (s, ps1) ← statement fuel ps
      blockUntilEndGo fuel ps1 kind (acc ++ [s])

/-- parser.py `Parser._condition` (lines 335-336). -/
def condition : Nat → PState → Except PyErr (Expr × PState)
  | 0, _ => .error .fuelExhausted
  | fuel + 1, ps => condOr fuel ps

/-- parser.py `Parser._cond_or` (lines 338-344). -/
def condOr : Nat → PState → Except PyErr (Expr × PState)
  | 0, _ => .error .fuelExhausted
  | fuel + 1, ps => do
    let (e, ps1) ← condAnd fuel ps
    condOrLoop fuel ps1 e

def condOrLoop : Nat → PState → Expr → Except PyErr (Expr × PState)
  | 0, _, _ => .error .fuelExhausted
  | fuel + 1, ps, e =>
    let step (ps1 : PState) : Except PyErr (Expr × PState) := do
      let op_tok := ps1.previous
      let (right, ps2) ← condAnd fuel ps1
      condOrLoop fuel ps2
        (.Binary e op_tok.lexeme right (some op_tok.line) (some op_tok.col))
    match matchKw ps "or" with
    | (true, ps1) => step ps1
    | (false, _) =>
      match matchKind ps .PIPE with
      | (true, ps1) => step ps1
      | (false, _) => .ok (e, ps)

/-- parser.py `Parser._cond_and` (lines 346-352). -/
def condAnd : Nat → PState → Except PyErr (Expr × PState)
  | 0, _ => .error .fuelExhausted
  | fuel + 1, ps => do
    let (e, ps1) ← condNot fuel ps
    condAndLoop fuel ps1 e

def condAndLoop : Nat → PState → Expr → Except PyErr (Expr × PState)
  | 0, _, _ => .error .fuelExhausted
  | fuel + 1, ps, e =>
    let step (ps1 : PState) : Except PyErr (Expr × PState) := do
      let op_tok := ps1.previous
      let (right, ps2) ← condNot fuel ps1
      condAndLoop fuel ps2
        (.Binary e op_tok.lexeme right (some op_tok.line) (some op_tok.col))
    match matchKw ps "and" with
    | (true, ps1) => step ps1
    | (false, _) =>
      match matchKind ps .AMP with
      | (true, ps1) => step ps1
      | (false, _) => .ok (e, ps)

/-- parser.py `Parser._cond_not` (lines 354-359). -/
def condNot : Nat → PState → Except PyErr (Expr × PState)
  | 0, _ => .error .fuelExhausted
  | fuel + 1, ps =>
    let step (ps1 : PState) : Except PyErr (Expr × PState) := do
      let op_tok := ps1.previous
      let (right, ps2) ← condNot fuel ps1
      .ok (.Unary op_tok.lexeme right (some op_tok.line) (some op_tok.col), ps2)
    match matchKw ps "not" with
    | (true, ps1) => step ps1
    | (false, _) =>
      match matchKind ps .BANG with
      | (true, ps1) => step ps1
      | (false, _) => condCmp fuel ps

/-- parser.py `Parser._cond_cmp` (lines 361-369). -/
def condCmp : Nat → PState → Except PyErr (Expr × PState)
  | 0, _ => .error .fuelExhausted
  | fuel + 1, ps =>
    match matchKind ps .LPAREN with
    | (true, ps1) => do
      let (e, ps2) ← condition fuel ps1
      let ps3 ← consumeTk ps2 .RPAREN "Expected \x27)\x27 after condition"
      .ok (e, ps3)
    | (false, _) => do
      let (left, ps1) ← expression fuel ps
      let (op, ps2) ← comparisonOp ps1
      let (right, ps3) ← expression fuel ps2
      .ok (.Binary left op right left.line left.col, ps3)

/-- parser.py `Parser._expression` (lines 402-403). -/
def expression : Nat → PState → Except PyErr (Expr × PState)
  | 0, _ => .error .fuelExhausted
  | fuel + 1, ps => addExpr fuel ps

/-- parser.py `Parser._add_expr` (lines 405-422). -/
def addExpr : Nat → PState → Except PyErr (Expr × PState)
  | 0, _ => .error .fuelExhausted
  | fuel + 1, ps => do
    let (e, ps1) ← mulExpr fuel ps
    addExprLoop fuel ps1 e

def addExprLoop : Nat → PState → Expr → Except PyErr (Expr × PState)
  | 0, _, _ => .error .fuelExhausted
  | fuel + 1, ps, e =>
    let step (ps1 : PState) : Except PyErr (Expr × PState) := do
      let op_tok := ps1.previous
      let (right, ps2) ← mulExpr fuel ps1
      addExprLoop fuel ps2
        (.Binary e op_tok.lexeme right (some op_tok.line) (some op_tok.col))
    match matchKind ps .PLUS with
    | (true, ps1) => step ps1
    | (false, _) =>
      match matchKind ps .MINUS with
      | (true, ps1) => step ps1
      | (false, _) => .ok (e, ps)

/-- parser.py `Parser._mul_expr` (lines 424-441). -/
def mulExpr : Nat → PState → Except PyErr (Expr × PState)
  | 0, _ => .error .fuelExhausted
  | fuel + 1, ps => do
    let (e, ps1) ← powerExpr fuel ps
    mulExprLoop fuel ps1 e

def mulExprLoop : Nat → PState → Expr → Except PyErr (Expr × PState)
  | 0, _, _ => .error .fuelExhausted
  | fuel + 1, ps, e =>
    let step (ps1 : PState) : Except PyErr (Expr × PState) := do
      let op_tok := ps1.previous
      let (right, ps2) ← powerExpr fuel ps1
      mulExprLoop fuel ps2
        (.Binary e op_tok.lexeme right (some op_tok.line) (some op_tok.col))
    match matchKind ps .STAR with
    | (true, ps1) => step ps1
    | (false, _) =>
      match matchKind ps .SLASH with
      | (true, ps1) => step ps1
      | (false, _) => .ok (e, ps)

/-- parser.py `Parser._power_expr` (lines 443-449): `^` is
right-associative. -/
def powerExpr : Nat → PState → Except PyErr (Expr × PState)
  | 0, _ => .error .fuelExhausted
  | fuel + 1, ps => do
    let (base, ps1) ← unaryExpr fuel ps
    match matchKind ps1 .CARET with
    | (true, ps2) => do
      let op_tok := ps2.previous
      let (exponent, ps3) ← powerExpr fuel ps2
      .ok (.Power base exponent (some op_tok.line) (some op_tok.col), ps3)
    | (false, _) => .ok (base, ps1)

/-- parser.py `Parser._unary_expr` (lines 451-458). -/
def unaryExpr : Nat → PState → Except PyErr (Expr × PState)
  | 0, _ => .error .fuelExhausted
  | fuel + 1, ps =>
    match matchKind ps .PLUS with
    | (true, ps1) => do
      let op_tok := ps1.previous
      let (e, ps2) ← unaryExpr fuel ps1
      .ok (.Unary "+" e (some op_tok.line) (some op_tok.col), ps2)
    | (false, _) =>
      match matchKind ps .MINUS with
      | (true, ps1) => do
        let op_tok := ps1.previous
        let (e, ps2) ← unaryExpr fuel ps1
        .ok (.Unary "-" e (some op_tok.line) (some op_tok.col), ps2)
      | (false, _) => primary fuel ps

/-- A word-operator phrase `OP X and Y` in primary position
(parser.py lines 461-490, one block per word). -/
def wordBinary : Nat → PState → String → String →
    Except PyErr (Expr × PState)
  | 0, _, _, _ => .error .fuelExhausted
  | fuel + 1, ps, op, andMsg => do
    let op_tok := ps.previous
    let (left, ps1) ← unaryExpr fuel ps
    let ps2 ← consumeKw ps1 "and" andMsg
    let (right, ps3) ← unaryExpr fuel ps2
    .ok (.Binary left op right (some op_tok.line) (some op_tok.col), ps3)

/-- parser.py `Parser._primary` (lines 460-509).  The IDENT branch's
`self._match_op(lexer.TokenKind.LBRACKET)` (line 499) raises
`AttributeError`: the enum defines no LBRACKET member. -/
def primary : Nat → PState → Except PyErr (Expr × PState)
  | 0, _ => .error .fuelExhausted
  | fuel + 1, ps =>
    match matchKw ps "add" with
    | (true, ps1) => wordBinary fuel ps1 "add" "Expected \x27and\x27 after left operand"
    | (false, _) =>
    match matchKw ps "subtract" with
    | (true, ps1) => wordBinary fuel ps1 "subtract" "Expected \x27and\x27 after left operand"
    | (false, _) =>
    match matchKw ps "multiply" with
    | (true, ps1) => wordBinary fuel ps1 "multiply" "Expected \x27and\x27 after left operand"
    | (false, _) =>
    match matchKw ps "divide" with
    | (true, ps1) => wordBinary fuel ps1 "divide" "Expected \x27and\x27 after left operand"
    | (false, _) =>
    match matchKw ps "power" with
    | (true, ps1) => do
      let op_tok := ps1.previous
      let (base, ps2) ← unaryExpr fuel ps1
      let ps3 ← consumeKw ps2 "and" "Expected \x27and\x27 after base"
      let (exponent, ps4) ← unaryExpr fuel ps3
      .ok (.Power base exponent (some op_tok.line) (some op_tok.col), ps4)
    | (false, _) =>
    match matchKind ps .NUMBER with
    | (true, ps1) =>
      let tok := ps1.previous
      .ok (.Number tok.lexeme (some tok.line) (some tok.col), ps1)
    | (false, _) =>
    match matchKind ps .STRING with
    | (true, ps1) =>
      let tok := ps1.previous
      .ok (.Str tok.lexeme (some tok.line) (some tok.col), ps1)
    | (false, _) =>
    match matchKind ps .IDENT with
    | (true, ps1) =>
      let tok := ps1.previous
      (match TokenKind.member? "LBRACKET" with
       | none => .error (.attributeError "LBRACKET")
       | some lb =>
         match matchKind ps1 lb with
         | (true, ps2) => do
           let (idx, ps3) ← expression fuel ps2
           let ps4 ←
             match TokenKind.member? "RBRACKET" with
             | none => .error (.attributeError "RBRACKET")
             | some rb => consumeTk ps3 rb "Expected \x27]\x27 after index"
           .ok (.Index tok.lexeme idx (some tok.line) (some tok.col), ps4)
         | (false, _) =>
           .ok (.Var tok.lexeme (some tok.line) (some tok.col), ps1))
    | (false, _) =>
    match matchKind ps .LPAREN with
    | (true, ps1) => do
      let (e, ps2) ← expression fuel ps1
      let ps3 ← consumeTk ps2 .RPAREN "Expected \x27)\x27 after expression"
      .ok (e, ps3)
    | (false, _) =>
      let tok := ps.peek
      .error (.parseError ("Expected expression at " ++ toString tok.line
        ++ ":" ++ toString tok.col))

end

/-- parser.py `Parser.parse` (lines 45-62): parse functions and top-level
statements, then stamp the program with the first node's position. -/
def parse (tokens : List Token) : Except PyErr Program := do
  let fuel := 100 + 10 * tokens.length
  let (functions, stmts, _) ← parseLoop fuel ⟨tokens, 0⟩ [] []
  let firstLineCol : Option Nat × Option Nat :=
    match functions with
    | fn :: _ => (fn.line, fn.col)
    | [] =>
      match stmts with
      | s :: _ => (s.line, s.col)
      | [] => (none, none)
  .ok ⟨functions, stmts, firstLineCol.1, firstLineCol.2⟩

/-- The scan-then-parse front of the pipeline (writec.py lines 64-68). -/
def scanParse (source : String) : Except PyErr Program := do
  parse (← scan source)

/-! ## Code generator (codegen.py) -/

/-- codegen.py `Codegen` state (lines 14-18). -/
structure CodegenState where
  lines : List String
  indent : Nat
  env : List (String × String)
  deriving Repr

/-- codegen.py `Codegen._emit` (lines 323-324): append `"    " * indent
++ line`.  `_emit` takes exactly one positional argument besides `self`. -/
def emit (st : CodegenState) (line : String) : CodegenState :=
  { st with
    lines := st.lines ++ [String.mk (List.replicate (4 * st.indent) ' ') ++ line] }

/-- codegen.py `Codegen._push` (lines 326-327). -/
def cgPush (st : CodegenState) : CodegenState :=
  { st with indent := st.indent + 1 }

/-- codegen.py `Codegen.generate` (lines 20-69).  It resets the state,
emits the fixed header and runtime-helper block — and then, at
codegen.py line 46, executes `self._emit("if (i) oss << ", ";")`, which
passes *two* positional arguments to the one-parameter `_emit` (a quoting
slip: the intended single argument was split at its inner quotes).  Python
raises `TypeError` there, before any program-dependent code runs, so
`generate` raises on every input; the remainder of the method
(lines 47-69) is unreachable and is therefore not modelled. -/
def generate (_program : Program) : Except PyErr String :=
  let st : CodegenState := ⟨[], 0, []⟩
  let st := emit st "#include <iostream>"
  let st := emit st "#include <cmath>"
  let st := emit st "#include <string>"
  let st := emit st "#include <tuple>"
  let st := emit st "#include <vector>"
  let st := emit st "#include <sstream>"
  let st := emit st "using namespace std;"
  let st := emit st ""
  let st := emit st
    "// Runtime helpers (keep small; ready for future library extraction)"
  let st := emit st "namespace write_runtime \x7b"
  let st := cgPush st
  let st := emit st "template <typename T>"
  let st := emit st "inline void read_value(T& v) \x7b cin >> v; \x7d"
  let st := emit st
    "inline void read_value(std::string& v) \x7b getline(cin >> ws, v); \x7d"
  let st := emit st
    "inline std::string fmt_vector(const std::vector<double>& v) \x7b"
  let st := cgPush st
  let st := emit st "std::ostringstream oss;"
  let st := emit st "oss << \x27[\x27;"
  let st := emit st "for (size_t i = 0; i < v.size(); ++i) \x7b"
  let st := cgPush st
  let _ := st
  -- codegen.py:46 `self._emit("if (i) oss << ", ";")` — TypeError.
  .error (.typeError "_emit() takes 2 positional arguments but 3 were given")

/-! ## Theorems -/

/-- C1: the claim says `Codegen.generate` returns the generated source for
every analyzer-accepted AST and never raises.  In fact `generate` raises
`TypeError` on *every* input: codegen.py line 46 passes two positional
arguments to the one-parameter `_emit` while emitting the fixed runtime
helper block, before any program-dependent code runs. -/
theorem c1_generate_always_raises (p : Program) :
    generate p
      = .error (.typeError "_emit() takes 2 positional arguments but 3 were given") :=
  rfl

/-- C2: the claim says only LexerError/ParseError/SemanticError can escape
the scan/parse/analyze stages.  In fact parsing the one-statement program
`set x to 1` raises `AttributeError` (parser.py:113 references
`lexer.TokenKind.LBRACKET`, a member the enum does not define), which is
none of the three domain exception kinds. -/
theorem c2_parse_raises_attribute_error :
    scanParse "set x to 1" = .error (.attributeError "LBRACKET")
    ∧ (∀ m, PyErr.attributeError "LBRACKET" ≠ .lexerError m)
    ∧ (∀ m, PyErr.attributeError "LBRACKET" ≠ .parseError m)
    ∧ (∀ m, PyErr.attributeError "LBRACKET" ≠ .semanticError m) :=
  ⟨rfl, fun _ => by simp, fun _ => by simp, fun _ => by simp⟩

/-- C5 counterexample: the claim says a newline inside an open string
literal makes `scan` raise a LexerError.  On the input `"a\nb"` (opening
quote, `a`, newline, `b`, closing quote) `scan` succeeds, returning a
single multi-line STRING token — the newline was consumed and the line
counter updated (the token is recorded at line 2), but no error was
raised. -/
theorem c5_counterexample_newline_in_string_accepted :
    scan "\"a\nb\"" = .ok [⟨.STRING, "a\nb", 2, 3⟩, ⟨.EOF, "", 2, 3⟩] :=
  rfl

/-- C6 counterexample: the claim says every ParseError message has the
shape `<message> at <line>:<col>`.  The input `while 1 < 2 then` raises a
ParseError from `_consume_kw` (parser.py:622-625) whose message is the
bare string `Expected 'do' after while condition`, which contains no `:`
character and therefore cannot be of that shape for any line/col. -/
theorem c6_counterexample_bare_parse_error :
    scanParse "while 1 < 2 then"
      = .error (.parseError "Expected \x27do\x27 after while condition")
    ∧ ∀ (pre : String) (l c : Nat),
        "Expected \x27do\x27 after while condition"
          ≠ pre ++ " at " ++ toString l ++ ":" ++ toString c := by
  refine ⟨rfl, fun pre l c h => ?_⟩
  have hd := congrArg String.data h
  have hmem : ':' ∈ (pre ++ " at " ++ toString l ++ ":" ++ toString c).data := by
    simp [String.data_append]
  rw [← hd] at hmem
  revert hmem
  decide

/-- C4 counterexample: the claim says an untyped assignment to a name of
concrete type `T` is accepted iff the right-hand side's type equals `T`,
or `T` is float and the type is int/float, or both are numeric.  After
`make s as string` and `make a` (binding `a` to the unknown type `auto`),
the assignment `set s to a` has right-hand-side type `auto` — none of the
three conditions holds for `T = string` — yet analysis accepts it:
`_ensure_assignable` (semantic.py:355) returns early whenever the
expression type is `auto`. -/
theorem c4_counterexample_auto_rhs_accepted :
    analyzeStmts (initState "make s as string\nmake a\nset s to a")
        [.Declaration "s" (some "string") none (some 1) (some 6),
         .Declaration "a" none none (some 2) (some 6),
         .Assign "s" (.Var "a" (some 3) (some 10)) none (some 3) (some 5)]
      = .ok ⟨[[("s", ⟨some "string", none⟩), ("a", ⟨some "auto", none⟩)]], [], 0,
          ["make s as string", "make a", "set s to a"]⟩
    ∧ analyzeExpr
        ⟨[[("s", ⟨some "string", none⟩), ("a", ⟨some "auto", none⟩)]], [], 0,
          ["make s as string", "make a", "set s to a"]⟩
        (.Var "a" (some 3) (some 10)) = .ok "auto"
    ∧ ¬ (("auto" : String) = "string"
          ∨ (("string" : String) = "float" ∧ (("auto" : String) = "int" ∨ ("auto" : String) = "float"))
          ∨ (Numeric.contains "string" ∧ Numeric.contains "auto")) :=
  ⟨rfl, rfl, by decide⟩


/-- `Analyzer._err` always raises a `SemanticError`. -/
theorem errAt_semanticError {α : Type} (line col : Option Nat)
    (srcLines : List String) (msg : String) :
    ∃ m, (errAt line col srcLines msg : Except PyErr α)
      = .error (.semanticError m) := by
  unfold errAt
  cases line with
  | none => exact ⟨msg, rfl⟩
  | some l =>
    dsimp only
    split
    · exact ⟨_, rfl⟩
    · exact ⟨msg, rfl⟩

/-- `Analyzer._err` never returns normally. -/
theorem errAt_ne_ok {α : Type} (line col : Option Nat)
    (srcLines : List String) (msg : String) (a : α) :
    (errAt line col srcLines msg : Except PyErr α) ≠ .ok a := by
  obtain ⟨m, hm⟩ := errAt_semanticError (α := α) line col srcLines msg
  simp [hm]

/-- Monadic-bind reduction for `Except` on a success. -/
theorem except_bind_ok {ε α β : Type} (a : α) (f : α → Except ε β) :
    ((Except.ok a : Except ε α) >>= f) = f a := rfl

/-- Monadic-bind reduction for `Except` on a raised exception. -/
theorem except_bind_error {ε α β : Type} (e : ε) (f : α → Except ε β) :
    ((Except.error e : Except ε α) >>= f) = .error e := rfl

/-- `_ensure_assignable` with a concrete (non-`auto`) target type succeeds
exactly when the expression type is `auto`, equals the target, is int/float
into a float target, or both types are numeric. -/
theorem ensureAssignable_ok_iff (line col : Option Nat) (srcLines : List String)
    (T t : String) (hT : T ≠ "auto") :
    (ensureAssignable line col srcLines (some T) t = .ok ()
      ↔ (t = "auto" ∨ T = t ∨ (T = "float" ∧ (t = "int" ∨ t = "float"))
          ∨ (Numeric.contains T ∧ Numeric.contains t))) := by
  unfold ensureAssignable
  dsimp only
  split_ifs with h1 h2 h3 h4 h5
  · exact absurd h1 hT
  · simp [h2]
  · simpa using Or.inr (Or.inl h3)
  · simpa using Or.inr (Or.inr (Or.inl h4))
  · simpa using Or.inr (Or.inr (Or.inr h5))
  · constructor
    · intro hok
      exact absurd hok (errAt_ne_ok _ _ _ _ _)
    · intro hr
      tauto

/-- `_ensure_assignable` either succeeds or raises a `SemanticError`. -/
theorem ensureAssignable_cases (line col : Option Nat) (srcLines : List String)
    (tt : Option String) (t : String) :
    ensureAssignable line col srcLines tt t = .ok ()
    ∨ ∃ m, ensureAssignable line col srcLines tt t = .error (.semanticError m) := by
  unfold ensureAssignable
  cases tt with
  | none => exact Or.inl rfl
  | some T =>
    dsimp only
    split_ifs
    case _ => exact Or.inl rfl
    case _ => exact Or.inl rfl
    case _ => exact Or.inl rfl
    case _ => exact Or.inl rfl
    case _ => exact Or.inl rfl
    case _ => exact Or.inr (errAt_semanticError _ _ _ _)

/-- C4 (amended): for an assignment without an explicit target type to a
name bound to a concrete type `T` (not `auto`), where the right-hand side
analyzes to type `t`, analysis accepts iff `t = T`, or `T` is float and
`t` is int or float, or both are numeric, **or `t` is the unknown type
`auto`** (always accepted); in every other case it raises SemanticError. -/
theorem c4_amended_assign (st : AnalyzerState) (name : String) (e : Expr)
    (T t : String) (sz : Option Int) (line col : Option Nat)
    (hbind : lookupVar st.env_stack name = some ⟨some T, sz⟩)
    (hT : T ≠ "auto")
    (he : analyzeExpr st e = .ok t) :
    ((∃ st2, analyzeStmt st (.Assign name e none line col) = .ok st2)
      ↔ (t = T ∨ (T = "float" ∧ (t = "int" ∨ t = "float"))
          ∨ (Numeric.contains T ∧ Numeric.contains t) ∨ t = "auto"))
    ∧ (¬ (t = T ∨ (T = "float" ∧ (t = "int" ∨ t = "float"))
          ∨ (Numeric.contains T ∧ Numeric.contains t) ∨ t = "auto") →
        ∃ m, analyzeStmt st (.Assign name e none line col)
          = .error (.semanticError m)) := by
  have h0 : analyzeStmt st (.Assign name e none line col)
      = (analyzeExpr st e >>= fun t2 =>
          match lookupVar st.env_stack name with
          | some existing => do
              ensureAssignable line col st.source_lines existing.name t2
              .ok (envSet st name existing)
          | none => .ok (envSet st name ⟨some t2, none⟩)) := rfl
  rw [he, except_bind_ok, hbind] at h0
  dsimp only at h0
  have hiff := ensureAssignable_ok_iff line col st.source_lines T t hT
  have hcond : (t = T ∨ (T = "float" ∧ (t = "int" ∨ t = "float"))
        ∨ (Numeric.contains T ∧ Numeric.contains t) ∨ t = "auto")
      ↔ (t = "auto" ∨ T = t ∨ (T = "float" ∧ (t = "int" ∨ t = "float"))
          ∨ (Numeric.contains T ∧ Numeric.contains t)) := by
    constructor
    · intro h; rcases h with h | h | h | h
      · exact Or.inr (Or.inl h.symm)
      · tauto
      · tauto
      · tauto
    · intro h; rcases h with h | h | h | h
      · tauto
      · exact Or.inl h.symm
      · tauto
      · tauto
  constructor
  · constructor
    · rintro ⟨st2, h2⟩
      rw [h0] at h2
      rcases ensureAssignable_cases line col st.source_lines (some T) t with hok | ⟨m, hm⟩
      · exact hcond.mpr (hiff.mp hok)
      · rw [hm, except_bind_error] at h2
        exact absurd h2 (by simp)
    · intro hc
      refine ⟨envSet st name ⟨some T, sz⟩, ?_⟩
      rw [h0, hiff.mpr (hcond.mp hc), except_bind_ok]
  · intro hc
    rcases ensureAssignable_cases line col st.source_lines (some T) t with hok | ⟨m, hm⟩
    · exact absurd (hcond.mpr (hiff.mp hok)) hc
    · exact ⟨m, by rw [h0, hm, except_bind_error]⟩



/-- C3: for a container access (read `NAME[i]` or write `NAME[i] = e`)
where `NAME` is bound to a list/array with literal size `n` and the index
is a literal integer `i`, semantic analysis accepts the access iff
`0 ≤ i < n` and raises `SemanticError` otherwise (for the write, with a
well-typed numeric right-hand side). -/
theorem c3_literal_index_bounds (st : AnalyzerState) (name ct : String)
    (n i : Int) (s : String) (il ic eLine eCol : Option Nat)
    (rhs : Expr) (rt : String)
    (hbase : lookupVar st.env_stack name = some ⟨some ct, some n⟩)
    (hct : ContainerTypes.contains ct = true)
    (hlit : literalIntValue (.Number s il ic) = some i)
    (hrhs : analyzeExpr st rhs = .ok rt)
    (hrt : Numeric.contains rt = true) :
    ((analyzeExpr st (.Index name (.Number s il ic) eLine eCol) = .ok "float")
      ↔ (0 ≤ i ∧ i < n))
    ∧ ((analyzeStmt st (.IndexAssign name (.Number s il ic) rhs eLine eCol)
          = .ok st)
      ↔ (0 ≤ i ∧ i < n))
    ∧ (¬ (0 ≤ i ∧ i < n) →
        (∃ m, analyzeExpr st (.Index name (.Number s il ic) eLine eCol)
            = .error (.semanticError m))
        ∧ ∃ m, analyzeStmt st (.IndexAssign name (.Number s il ic) rhs eLine eCol)
            = .error (.semanticError m)) := by
  have hidx : analyzeExpr st (Expr.Number s il ic)
      = .ok (if isFloatLiteral s then "float" else "int") := rfl
  have hidxnum : Numeric.contains (if isFloatLiteral s then "float" else "int")
      = true := by
    cases hf : isFloatLiteral s <;> simp [hf] <;> decide
  have h0 : analyzeExpr st (.Index name (.Number s il ic) eLine eCol)
      = (match lookupVar st.env_stack name with
        | none => errAt eLine eCol st.source_lines
            ("variable \x27" ++ name ++ "\x27 not declared")
        | some base =>
          if ¬ isContainerName base.name then
            errAt eLine eCol st.source_lines
              ("indexing requires list/array (got " ++ optStr base.name ++ ")")
          else analyzeExpr st (Expr.Number s il ic) >>= fun idx_type =>
            if ¬ Numeric.contains idx_type then
              errAt eLine eCol st.source_lines "index must be numeric"
            else
              match base.size, literalIntValue (.Number s il ic) with
              | some size, some ilv =>
                if ilv < 0 ∨ ilv ≥ size then
                  errAt eLine eCol st.source_lines
                    ("index " ++ toString ilv ++ " out of bounds for \x27" ++ name
                      ++ "\x27 of size " ++ toString size)
                else .ok "float"
              | _, _ => .ok "float") := rfl
  rw [hbase] at h0
  dsimp only [isContainerName] at h0
  rw [hct] at h0
  rw [hidx, except_bind_ok, hidxnum, hlit] at h0
  dsimp only at h0
  simp only [not_true, if_false, Bool.true_eq_false, if_neg, ite_false] at h0
  have h1 : analyzeStmt st (.IndexAssign name (.Number s il ic) rhs eLine eCol)
      = (match lookupVar st.env_stack name with
        | none => errAt eLine eCol st.source_lines
            ("variable \x27" ++ name ++ "\x27 not declared")
        | some base =>
          if ¬ isContainerName base.name then
            errAt eLine eCol st.source_lines
              ("indexing requires list/array (got " ++ optStr base.name ++ ")")
          else analyzeExpr st (Expr.Number s il ic) >>= fun idx_type =>
            if ¬ Numeric.contains idx_type then
              errAt eLine eCol st.source_lines "index must be numeric"
            else
              (match base.size, literalIntValue (.Number s il ic) with
              | some size, some ilv =>
                if ilv < 0 ∨ ilv ≥ size then
                  errAt eLine eCol st.source_lines
                    ("index " ++ toString ilv ++ " out of bounds for \x27" ++ name
                      ++ "\x27 of size " ++ toString size)
                else .ok ()
              | _, _ => (.ok () : Except PyErr Unit)) >>= fun _ =>
                analyzeExpr st rhs >>= fun val_type =>
                  if ¬ Numeric.contains val_type then
                    errAt eLine eCol st.source_lines
                      "container elements must be numeric"
                  else .ok st) := rfl
  rw [hbase] at h1
  dsimp only [isContainerName] at h1
  rw [hct] at h1
  rw [hidx, except_bind_ok, hidxnum, hlit] at h1
  dsimp only at h1
  simp only [not_true, if_false, Bool.true_eq_false, if_neg, ite_false] at h1
  by_cases hb : i < 0 ∨ i ≥ n
  · rw [if_pos hb] at h0 h1
    obtain ⟨m0, hm0⟩ := errAt_semanticError (α := String) eLine eCol
      st.source_lines ("index " ++ toString i ++ " out of bounds for \x27"
        ++ name ++ "\x27 of size " ++ toString n)
    obtain ⟨m1, hm1⟩ := errAt_semanticError (α := Unit) eLine eCol
      st.source_lines ("index " ++ toString i ++ " out of bounds for \x27"
        ++ name ++ "\x27 of size " ++ toString n)
    rw [hm0] at h0
    rw [hm1, except_bind_error] at h1
    refine ⟨?_, ?_, ?_⟩
    · rw [h0]
      constructor
      · intro h; simp at h
      · intro h; omega
    · rw [h1]
      constructor
      · intro h; simp at h
      · intro h; omega
    · intro _
      exact ⟨⟨m0, h0⟩, ⟨m1, h1⟩⟩
  · rw [if_neg hb] at h0 h1
    rw [except_bind_ok, hrhs, except_bind_ok, hrt] at h1
    simp only [not_true, Bool.true_eq_false, ite_false] at h1
    refine ⟨?_, ?_, ?_⟩
    · rw [h0]; simp; omega
    · rw [h1]; simp; omega
    · intro h; omega


/-- Witness for C3 at a concrete instance: `xs` a list of literal size 3,
literal index 1, numeric right-hand side — the access is accepted and
`0 ≤ 1 < 3`. -/
theorem c3_literal_index_bounds_witness :
    lookupVar ([[("xs", ⟨some "list", some 3⟩)]] :
        List (List (String × TypeInfo))) "xs" = some ⟨some "list", some 3⟩
    ∧ ContainerTypes.contains "list" = true
    ∧ literalIntValue (.Number "1" none none) = some 1
    ∧ analyzeExpr ⟨[[("xs", ⟨some "list", some 3⟩)]], [], 0, []⟩
        (.Number "2" none none) = .ok "int"
    ∧ Numeric.contains "int" = true
    ∧ ((analyzeExpr ⟨[[("xs", ⟨some "list", some 3⟩)]], [], 0, []⟩
          (.Index "xs" (.Number "1" none none) none none) = .ok "float")
        ↔ (0 ≤ (1 : Int) ∧ (1 : Int) < 3)) :=
  ⟨rfl, rfl, rfl, rfl, rfl,
    (c3_literal_index_bounds ⟨[[("xs", ⟨some "list", some 3⟩)]], [], 0, []⟩
      "xs" "list" 3 1 "1" none none none none (.Number "2" none none) "int"
      rfl rfl rfl rfl rfl).1⟩

/-- Witness for C4 (amended) at a concrete instance: assigning an int
expression to an int-typed binding is accepted. -/
theorem c4_amended_assign_witness :
    lookupVar ([[("x", ⟨some "int", none⟩)]] :
        List (List (String × TypeInfo))) "x" = some ⟨some "int", none⟩
    ∧ ("int" : String) ≠ "auto"
    ∧ analyzeExpr ⟨[[("x", ⟨some "int", none⟩)]], [], 0, []⟩
        (.Number "1" none none) = .ok "int"
    ∧ ((∃ st2, analyzeStmt ⟨[[("x", ⟨some "int", none⟩)]], [], 0, []⟩
          (.Assign "x" (.Number "1" none none) none none none) = .ok st2)
        ↔ (("int" : String) = "int"
            ∨ (("int" : String) = "float"
                ∧ (("int" : String) = "int" ∨ ("int" : String) = "float"))
            ∨ (Numeric.contains "int" ∧ Numeric.contains "int")
            ∨ ("int" : String) = "auto")) :=
  ⟨rfl, by decide, rfl,
    (c4_amended_assign ⟨[[("x", ⟨some "int", none⟩)]], [], 0, []⟩ "x"
      (.Number "1" none none) "int" "int" none none none
      rfl (by decide) rfl).1⟩

/-- Python `d.get(k)` finds the entry whose key equals `k` (hit). -/
theorem dictGet_cons_eq {α : Type} (d : List (String × α)) (k : String) (v : α) :
    dictGet ((k, v) :: d) k = some v := by
  simp [dictGet, List.find?]

/-- Python `d.get(k)` skips entries with other keys. -/
theorem dictGet_cons_ne {α : Type} (d : List (String × α)) (k k' : String)
    (v : α) (h : k' ≠ k) : dictGet ((k', v) :: d) k = dictGet d k := by
  simp [dictGet, List.find?, h]

/-- `d[k] = v` on a one-entry dict with a different key appends. -/
theorem dictSet_singleton_ne {α : Type} (k k' : String) (v v' : α)
    (h : k' ≠ k) : dictSet [(k', v')] k v = [(k', v'), (k, v)] := by
  simp [dictSet, h]

/-- `_check_call` succeeds for a no-argument call to a registered
zero-parameter function. -/
theorem checkCall_noargs_noparams (st : AnalyzerState) (name : String)
    (hget : dictGet st.functions name = some ⟨name, []⟩) :
    checkCall st name [] none none = .ok () := by
  unfold checkCall
  rw [hget]
  rfl

/-- A body consisting of one such call leaves the analyzer state
unchanged. -/
theorem analyzeStmts_single_call (st : AnalyzerState) (n : String)
    (h : checkCall st n [] none none = .ok ()) :
    analyzeStmts st [.Call n [] none none] = .ok st := by
  rw [show analyzeStmts st [.Call n [] none none]
      = ((checkCall st n [] none none >>= fun _ => .ok st)
          >>= fun st1 => analyzeStmts st1 []) from rfl, h]
  rfl

/-- `_analyze_function` for a registered zero-parameter signature pushes a
scope, bumps the depth, walks the body, and undoes both. -/
theorem analyzeFunction_found_noparams (st : AnalyzerState) (fn : Function)
    (hget : dictGet st.functions fn.name = some ⟨fn.name, []⟩) :
    analyzeFunction st fn
      = (analyzeStmts { pushEnv st with function_depth := st.function_depth + 1 }
          fn.body >>= fun st2 =>
          .ok (popEnv { st2 with function_depth := st2.function_depth - 1 })) := by
  unfold analyzeFunction
  rw [hget]
  rfl

/-- C7: function signatures are registered in the global function table
before any function body is analyzed, so a call from one function to a
sibling function is accepted regardless of whether the callee is declared
before or after the caller: for any two distinct function names, the
program in which the caller precedes the callee and the program in which
it follows the callee both analyze without error. -/
theorem c7_sibling_call_order_independent (n1 n2 : String) (h : n1 ≠ n2) :
    (analyze (initState "")
      ⟨[⟨n1, [], [.Call n2 [] none none], none, none⟩,
        ⟨n2, [], [], none, none⟩], [], none, none⟩).isOk = true
    ∧ (analyze (initState "")
      ⟨[⟨n2, [], [], none, none⟩,
        ⟨n1, [], [.Call n2 [] none none], none, none⟩], [], none, none⟩).isOk
      = true := by
  have h21 : n2 ≠ n1 := Ne.symm h
  constructor
  · have hreg : registerFunctions ⟨[[]], [], 0, []⟩
        [⟨n1, [], [.Call n2 [] none none], none, none⟩, ⟨n2, [], [], none, none⟩]
        = .ok ([⟨n1, [], [.Call n2 [] none none], none, none⟩,
                ⟨n2, [], [], none, none⟩],
            ⟨[[]], [(n1, ⟨n1, []⟩), (n2, ⟨n2, []⟩)], 0, []⟩) := by
      have step2 : registerFunctions ⟨[[]], [(n1, ⟨n1, []⟩)], 0, []⟩
          [⟨n2, [], [], none, none⟩]
          = if (dictGet [(n1, (⟨n1, []⟩ : FunctionSig))] n2).isSome then
              errAt none none [] ("function \x27" ++ n2 ++ "\x27 already defined")
            else
              (.ok ([⟨n2, [], [], none, none⟩],
                (⟨[[]], dictSet [(n1, ⟨n1, []⟩)] n2 ⟨n2, []⟩, 0, []⟩ : AnalyzerState))
                : Except PyErr (List Function × AnalyzerState)) := rfl
      rw [show registerFunctions ⟨[[]], [], 0, []⟩
          [⟨n1, [], [.Call n2 [] none none], none, none⟩, ⟨n2, [], [], none, none⟩]
          = registerFunctions ⟨[[]], [(n1, ⟨n1, []⟩)], 0, []⟩
              [⟨n2, [], [], none, none⟩] >>= fun res2 =>
                .ok (⟨n1, [], [.Call n2 [] none none], none, none⟩ :: res2.1, res2.2)
          from rfl]
      rw [step2, dictGet_cons_ne _ _ _ _ h, dictSet_singleton_ne _ _ _ _ h]
      rfl
    have hget1 : dictGet ([(n1, ⟨n1, []⟩), (n2, ⟨n2, []⟩)] :
        List (String × FunctionSig)) n1 = some ⟨n1, []⟩ := dictGet_cons_eq _ _ _
    have hget2 : dictGet ([(n1, ⟨n1, []⟩), (n2, ⟨n2, []⟩)] :
        List (String × FunctionSig)) n2 = some ⟨n2, []⟩ := by
      rw [dictGet_cons_ne _ _ _ _ h, dictGet_cons_eq]
    have hfn1 : analyzeFunction ⟨[[]], [(n1, ⟨n1, []⟩), (n2, ⟨n2, []⟩)], 0, []⟩
        ⟨n1, [], [.Call n2 [] none none], none, none⟩
        = .ok ⟨[[]], [(n1, ⟨n1, []⟩), (n2, ⟨n2, []⟩)], 0, []⟩ := by
      rw [analyzeFunction_found_noparams _ _ hget1]
      rw [show ({ pushEnv (⟨[[]], [(n1, ⟨n1, []⟩), (n2, ⟨n2, []⟩)], 0, []⟩ :
            AnalyzerState) with
          function_depth := (⟨[[]], [(n1, ⟨n1, []⟩), (n2, ⟨n2, []⟩)], 0, []⟩ :
            AnalyzerState).function_depth + 1 } : AnalyzerState)
          = ⟨[[], []], [(n1, ⟨n1, []⟩), (n2, ⟨n2, []⟩)], 1, []⟩ from rfl]
      rw [analyzeStmts_single_call _ _ (checkCall_noargs_noparams _ _ hget2)]
      rfl
    have hfn2 : analyzeFunction ⟨[[]], [(n1, ⟨n1, []⟩), (n2, ⟨n2, []⟩)], 0, []⟩
        ⟨n2, [], [], none, none⟩
        = .ok ⟨[[]], [(n1, ⟨n1, []⟩), (n2, ⟨n2, []⟩)], 0, []⟩ := by
      rw [analyzeFunction_found_noparams _ _ hget2]
      rfl
    unfold analyze
    rw [show initState "" = ⟨[[]], [], 0, []⟩ from rfl]
    dsimp only
    rw [hreg, except_bind_ok]
    dsimp only
    rw [show (List.foldlM analyzeFunction
        (⟨[[]], [(n1, ⟨n1, []⟩), (n2, ⟨n2, []⟩)], 0, []⟩ : AnalyzerState)
        [⟨n1, [], [.Call n2 [] none none], none, none⟩, ⟨n2, [], [], none, none⟩])
        = (analyzeFunction ⟨[[]], [(n1, ⟨n1, []⟩), (n2, ⟨n2, []⟩)], 0, []⟩
            ⟨n1, [], [.Call n2 [] none none], none, none⟩ >>= fun s =>
            analyzeFunction s ⟨n2, [], [], none, none⟩ >>= fun s2 =>
            pure s2) from rfl]
    rw [hfn1, except_bind_ok, hfn2]
    rfl
  · have hreg : registerFunctions ⟨[[]], [], 0, []⟩
        [⟨n2, [], [], none, none⟩, ⟨n1, [], [.Call n2 [] none none], none, none⟩]
        = .ok ([⟨n2, [], [], none, none⟩,
                ⟨n1, [], [.Call n2 [] none none], none, none⟩],
            ⟨[[]], [(n2, ⟨n2, []⟩), (n1, ⟨n1, []⟩)], 0, []⟩) := by
      have step2 : registerFunctions ⟨[[]], [(n2, ⟨n2, []⟩)], 0, []⟩
          [⟨n1, [], [.Call n2 [] none none], none, none⟩]
          = if (dictGet [(n2, (⟨n2, []⟩ : FunctionSig))] n1).isSome then
              errAt none none [] ("function \x27" ++ n1 ++ "\x27 already defined")
            else
              (.ok ([⟨n1, [], [.Call n2 [] none none], none, none⟩],
                (⟨[[]], dictSet [(n2, ⟨n2, []⟩)] n1 ⟨n1, []⟩, 0, []⟩ : AnalyzerState))
                : Except PyErr (List Function × AnalyzerState)) := rfl
      rw [show registerFunctions ⟨[[]], [], 0, []⟩
          [⟨n2, [], [], none, none⟩, ⟨n1, [], [.Call n2 [] none none], none, none⟩]
          = registerFunctions ⟨[[]], [(n2, ⟨n2, []⟩)], 0, []⟩
              [⟨n1, [], [.Call n2 [] none none], none, none⟩] >>= fun res2 =>
                .ok (⟨n2, [], [], none, none⟩ :: res2.1, res2.2)
          from rfl]
      rw [step2, dictGet_cons_ne _ _ _ _ h21, dictSet_singleton_ne _ _ _ _ h21]
      rfl
    have hget2 : dictGet ([(n2, ⟨n2, []⟩), (n1, ⟨n1, []⟩)] :
        List (String × FunctionSig)) n2 = some ⟨n2, []⟩ := dictGet_cons_eq _ _ _
    have hget1 : dictGet ([(n2, ⟨n2, []⟩), (n1, ⟨n1, []⟩)] :
        List (String × FunctionSig)) n1 = some ⟨n1, []⟩ := by
      rw [dictGet_cons_ne _ _ _ _ h21, dictGet_cons_eq]
    have hfn2 : analyzeFunction ⟨[[]], [(n2, ⟨n2, []⟩), (n1, ⟨n1, []⟩)], 0, []⟩
        ⟨n2, [], [], none, none⟩
        = .ok ⟨[[]], [(n2, ⟨n2, []⟩), (n1, ⟨n1, []⟩)], 0, []⟩ := by
      rw [analyzeFunction_found_noparams _ _ hget2]
      rfl
    have hfn1 : analyzeFunction ⟨[[]], [(n2, ⟨n2, []⟩), (n1, ⟨n1, []⟩)], 0, []⟩
        ⟨n1, [], [.Call n2 [] none none], none, none⟩
        = .ok ⟨[[]], [(n2, ⟨n2, []⟩), (n1, ⟨n1, []⟩)], 0, []⟩ := by
      rw [analyzeFunction_found_noparams _ _ hget1]
      rw [show ({ pushEnv (⟨[[]], [(n2, ⟨n2, []⟩), (n1, ⟨n1, []⟩)], 0, []⟩ :
            AnalyzerState) with
          function_depth := (⟨[[]], [(n2, ⟨n2, []⟩), (n1, ⟨n1, []⟩)], 0, []⟩ :
            AnalyzerState).function_depth + 1 } : AnalyzerState)
          = ⟨[[], []], [(n2, ⟨n2, []⟩), (n1, ⟨n1, []⟩)], 1, []⟩ from rfl]
      rw [analyzeStmts_single_call _ _ (checkCall_noargs_noparams _ _ hget2)]
      rfl
    unfold analyze
    rw [show initState "" = ⟨[[]], [], 0, []⟩ from rfl]
    dsimp only
    rw [hreg, except_bind_ok]
    dsimp only
    rw [show (List.foldlM analyzeFunction
        (⟨[[]], [(n2, ⟨n2, []⟩), (n1, ⟨n1, []⟩)], 0, []⟩ : AnalyzerState)
        [⟨n2, [], [], none, none⟩, ⟨n1, [], [.Call n2 [] none none], none, none⟩])
        = (analyzeFunction ⟨[[]], [(n2, ⟨n2, []⟩), (n1, ⟨n1, []⟩)], 0, []⟩
            ⟨n2, [], [], none, none⟩ >>= fun s =>
            analyzeFunction s ⟨n1, [], [.Call n2 [] none none], none, none⟩
              >>= fun s2 => pure s2) from rfl]
    rw [hfn2, except_bind_ok, hfn1]
    rfl

/-- Witness for C7 at the concrete names `f` and `g`. -/
theorem c7_sibling_call_order_independent_witness :
    ("f" : String) ≠ "g"
    ∧ (analyze (initState "")
        ⟨[⟨"f", [], [.Call "g" [] none none], none, none⟩,
          ⟨"g", [], [], none, none⟩], [], none, none⟩).isOk = true
    ∧ (analyze (initState "")
        ⟨[⟨"g", [], [], none, none⟩,
          ⟨"f", [], [.Call "g" [] none none], none, none⟩], [], none, none⟩).isOk
      = true := by
  refine ⟨by decide, ?_, ?_⟩
  · exact (c7_sibling_call_order_independent "f" "g" (by decide)).1
  · exact (c7_sibling_call_order_independent "f" "g" (by decide)).2


/-- C8: constant folding is idempotent — folding an already-folded
expression returns it unchanged, and folding a literal `Number` node
returns that same literal. -/
theorem c8_fold_idempotent : (∀ e, foldExpr (foldExpr e) = foldExpr e)
    ∧ ∀ v line col, foldExpr (.Number v line col) = .Number v line col := by
  refine ⟨?_, fun v line col => rfl⟩
  intro e
  induction e with
  | Number v l c => rfl
  | Str v l c => rfl
  | Var n l c => rfl
  | Unary op r l c ih =>
    simp only [foldExpr]
    cases hn : numValue? (foldExpr r) with
    | none => simp [foldExpr, ih, hn]
    | some rv =>
      dsimp only
      by_cases hop : op = "+" ∨ op = "-"
      · rw [if_pos hop]
        cases hf : pyFloat rv with
        | none => simp [foldExpr, ih, hn, hf, hop]
        | some q => simp [foldExpr]
      · rw [if_neg hop]
        simp [foldExpr, ih, hn, hop]
  | Binary lhs op rhs l c ihl ihr =>
    simp only [foldExpr]
    cases hl : numValue? (foldExpr lhs) with
    | none => simp [foldExpr, ihl, ihr, hl]
    | some lv =>
      cases hr : numValue? (foldExpr rhs) with
      | none => simp [foldExpr, ihl, ihr, hl, hr]
      | some rv =>
        cases he : evalBinary op lv rv with
        | none => simp [foldExpr, ihl, ihr, hl, hr, he]
        | some v => simp [foldExpr, hl, hr, he]
  | Power b ex l c ihb ihe =>
    simp only [foldExpr]
    cases hb : numValue? (foldExpr b) with
    | none => simp [foldExpr, ihb, ihe, hb]
    | some bv =>
      cases hx : numValue? (foldExpr ex) with
      | none => simp [foldExpr, ihb, ihe, hb, hx]
      | some ev =>
        cases he : evalPower bv ev with
        | none => simp [foldExpr, ihb, ihe, hb, hx, he]
        | some v => simp [foldExpr, hb, hx, he]
  | Index n i l c ih => rfl



/-! ## C10: scope-stack discipline of the analyzer -/

/-- `_env` mutation (`self._env()[k] = v`) never changes the stack depth. -/


theorem envSet_length (st : AnalyzerState) (k : String) (v : TypeInfo) :
    (envSet st k v).env_stack.length = st.env_stack.length := by
  unfold envSet
  cases h : st.env_stack with
  | nil => simp [h]
  | cons f rest => simp [h]

theorem pushEnv_length (st : AnalyzerState) :
    (pushEnv st).env_stack.length = st.env_stack.length + 1 := by
  simp [pushEnv]

theorem popEnv_length_of_two (st : AnalyzerState)
    (h : 2 ≤ st.env_stack.length) :
    (popEnv st).env_stack.length = st.env_stack.length - 1 := by
  unfold popEnv
  rcases hs : st.env_stack with _ | ⟨f, _ | ⟨g, rest⟩⟩
  · rw [hs] at h; simp at h
  · rw [hs] at h; simp at h
  · simp

theorem bind_eq_ok {ε α β : Type} {a : Except ε α} {f : α → Except ε β}
    {b : β} (h : (a >>= f) = .ok b) : ∃ x, a = .ok x ∧ f x = .ok b := by
  cases a with
  | error e => cases h
  | ok x => exact ⟨x, rfl, h⟩

theorem analyzeLen (n : Nat) :
    (∀ s : Stmt, sizeOf s ≤ n → ∀ st st2 : AnalyzerState,
        1 ≤ st.env_stack.length → analyzeStmt st s = .ok st2 →
        st2.env_stack.length = st.env_stack.length)
    ∧ (∀ l : List Stmt, sizeOf l ≤ n → ∀ st st2 : AnalyzerState,
        1 ≤ st.env_stack.length → analyzeStmts st l = .ok st2 →
        st2.env_stack.length = st.env_stack.length)
    ∧ (∀ l : List IfBranch, sizeOf l ≤ n → ∀ st st2 : AnalyzerState,
        1 ≤ st.env_stack.length → analyzeBranches st l = .ok st2 →
        st2.env_stack.length = st.env_stack.length) := by
  induction n using Nat.strong_induction_on with
  | _ n ih =>
    refine ⟨?_, ?_, ?_⟩
    · intro s hsz st st2 h1 h
      cases s with
      | Assign name e type line col =>
        rw [analyzeStmt] at h
        rcases bind_eq_ok h with ⟨t, ht, h⟩
        split at h
        · split at h
          · exact absurd h (errAt_ne_ok _ _ _ _ _)
          · rcases bind_eq_ok h with ⟨u, hu, h⟩
            rcases bind_eq_ok h with ⟨u2, hu2, h⟩
            simp only [Except.ok.injEq] at h
            subst h
            exact envSet_length _ _ _
        · split at h
          · rcases bind_eq_ok h with ⟨u, hu, h⟩
            simp only [Except.ok.injEq] at h
            subst h
            exact envSet_length _ _ _
          · simp only [Except.ok.injEq] at h
            subst h
            exact envSet_length _ _ _
      | Declaration name type size line col =>
        simp only [analyzeStmt] at h
        split at h
        · exact absurd h (errAt_ne_ok _ _ _ _ _)
        · split at h
          · exact absurd h (errAt_ne_ok _ _ _ _ _)
          · split at h
            · split at h
              · rcases bind_eq_ok h with ⟨szt, hszt, h⟩
                split at h
                · rcases bind_eq_ok h with ⟨y, hy, h⟩
                  exact absurd hy (errAt_ne_ok _ _ _ _ _)
                · rcases bind_eq_ok h with ⟨y, hy, h⟩
                  simp only [Except.ok.injEq] at h
                  subst h
                  exact envSet_length _ _ _
              · rcases bind_eq_ok h with ⟨y, hy, h⟩
                simp only [Except.ok.injEq] at h
                subst h
                exact envSet_length _ _ _
            · rcases bind_eq_ok h with ⟨y, hy, h⟩
              simp only [Except.ok.injEq] at h
              subst h
              exact envSet_length _ _ _
      | Input name type prompt line col =>
        simp only [analyzeStmt] at h
        split at h
        · split at h
          · exact absurd h (errAt_ne_ok _ _ _ _ _)
          · split at h
            · exact absurd h (errAt_ne_ok _ _ _ _ _)
            · simp only [Except.ok.injEq] at h
              subst h
              exact envSet_length _ _ _
        · split at h
          · exact absurd h (errAt_ne_ok _ _ _ _ _)
          · simp only [Except.ok.injEq] at h
            subst h
            rfl
      | IndexAssign name index e line col =>
        rw [analyzeStmt] at h
        split at h
        · exact absurd h (errAt_ne_ok _ _ _ _ _)
        · split at h
          · exact absurd h (errAt_ne_ok _ _ _ _ _)
          · rcases bind_eq_ok h with ⟨it, hit, h⟩
            split at h
            · exact absurd h (errAt_ne_ok _ _ _ _ _)
            · rcases bind_eq_ok h with ⟨u, hu, h⟩
              rcases bind_eq_ok h with ⟨vt, hvt, h⟩
              split at h
              · exact absurd h (errAt_ne_ok _ _ _ _ _)
              · simp only [Except.ok.injEq] at h
                subst h
                rfl
      | Print values line col =>
        rw [analyzeStmt] at h
        rcases bind_eq_ok h with ⟨ts, hts, h⟩
        simp only [Except.ok.injEq] at h
        subst h
        rfl
      | Return values line col =>
        rw [analyzeStmt] at h
        split at h
        · exact absurd h (errAt_ne_ok _ _ _ _ _)
        · rcases bind_eq_ok h with ⟨ts, hts, h⟩
          simp only [Except.ok.injEq] at h
          subst h
          rfl
      | Call name args line col =>
        rw [analyzeStmt] at h
        rcases bind_eq_ok h with ⟨u, hu, h⟩
        simp only [Except.ok.injEq] at h
        subst h
        rfl
      | While cond body line col =>
        rw [analyzeStmt] at h
        rcases bind_eq_ok h with ⟨ct, hct, h⟩
        rcases bind_eq_ok h with ⟨a, ha, h⟩
        have hlt : sizeOf body < n := by
          have : sizeOf body < sizeOf (Stmt.While cond body line col) := by
            simp <;> omega
          omega
        have hal : a.env_stack.length = (pushEnv st).env_stack.length :=
          (ih (sizeOf body) hlt).2.1 body le_rfl (pushEnv st) a
            (by rw [pushEnv_length]; omega) ha
        have h2a : 2 ≤ a.env_stack.length := by
          rw [hal, pushEnv_length]; omega
        simp only [Except.ok.injEq] at h
        subst h
        rw [popEnv_length_of_two a h2a, hal, pushEnv_length] <;> omega
      | For var start stop body line col =>
        rw [analyzeStmt] at h
        rcases bind_eq_ok h with ⟨t1, ht1, h⟩
        rcases bind_eq_ok h with ⟨t2, ht2, h⟩
        split at h
        · exact absurd h (errAt_ne_ok _ _ _ _ _)
        · have h2 :
              (analyzeStmts (envSet (pushEnv st) var ⟨some "int", none⟩) body >>=
                fun s2 => (.ok (popEnv s2) : Except PyErr AnalyzerState))
                = .ok st2 := h
          rcases bind_eq_ok h2 with ⟨a, ha, h3⟩
          have hlt : sizeOf body < n := by
            have : sizeOf body < sizeOf (Stmt.For var start stop body line col) := by
              simp
              omega
            omega
          have hal : a.env_stack.length
              = (envSet (pushEnv st) var ⟨some "int", none⟩).env_stack.length :=
            (ih (sizeOf body) hlt).2.1 body le_rfl _ a
              (by rw [envSet_length, pushEnv_length]; omega) ha
          have h2a : 2 ≤ a.env_stack.length := by
            rw [hal, envSet_length, pushEnv_length]; omega
          simp only [Except.ok.injEq] at h3
          subst h3
          rw [popEnv_length_of_two a h2a, hal, envSet_length, pushEnv_length] <;> omega
      | If first elifs else_body line col =>
        obtain ⟨fcond, fbody, fl, fc⟩ := first
        rw [analyzeStmt] at h
        rcases bind_eq_ok h with ⟨ct, hct, h⟩
        rcases bind_eq_ok h with ⟨a, ha, h⟩
        have hltb : sizeOf fbody < n := by
          have : sizeOf fbody
              < sizeOf (Stmt.If ⟨fcond, fbody, fl, fc⟩ elifs else_body line col) := by
            simp <;> omega
          omega
        have hal : a.env_stack.length = (pushEnv st).env_stack.length :=
          (ih (sizeOf fbody) hltb).2.1 fbody le_rfl (pushEnv st) a
            (by rw [pushEnv_length]; omega) ha
        have h2a : 2 ≤ a.env_stack.length := by
          rw [hal, pushEnv_length]; omega
        have hpl : (popEnv a).env_stack.length = st.env_stack.length := by
          rw [popEnv_length_of_two a h2a, hal, pushEnv_length] <;> omega
        rcases bind_eq_ok h with ⟨b, hb, h3⟩
        have hlte : sizeOf elifs < n := by
          have : sizeOf elifs
              < sizeOf (Stmt.If ⟨fcond, fbody, fl, fc⟩ elifs else_body line col) := by
            simp <;> omega
          omega
        have hbl : b.env_stack.length = (popEnv a).env_stack.length :=
          (ih (sizeOf elifs) hlte).2.2 elifs le_rfl (popEnv a) b
            (by rw [hpl]; omega) hb
        cases else_body with
        | none =>
          simp only [Except.ok.injEq] at h3
          subst h3
          rw [hbl, hpl]
        | some eb =>
          rcases bind_eq_ok h3 with ⟨c, hc, h4⟩
          have hltc : sizeOf eb < n := by
            have : sizeOf eb
                < sizeOf (Stmt.If ⟨fcond, fbody, fl, fc⟩ elifs (some eb) line col) := by
              simp
              omega
            omega
          have hcl : c.env_stack.length = (pushEnv b).env_stack.length :=
            (ih (sizeOf eb) hltc).2.1 eb le_rfl (pushEnv b) c
              (by rw [pushEnv_length]; omega) hc
          have h2c : 2 ≤ c.env_stack.length := by
            rw [hcl, pushEnv_length]; omega
          simp only [Except.ok.injEq] at h4
          subst h4
          rw [popEnv_length_of_two c h2c, hcl, pushEnv_length, hbl, hpl] <;> omega
    · intro l hsz st st2 h1 h
      cases l with
      | nil =>
        rw [analyzeStmts] at h
        simp only [Except.ok.injEq] at h
        subst h
        rfl
      | cons s rest =>
        rw [analyzeStmts] at h
        rcases bind_eq_ok h with ⟨st1, hst1, h⟩
        have hlt1 : sizeOf s < n := by
          have : sizeOf s < sizeOf (s :: rest) := by
            simp <;> omega
          omega
        have hlt2 : sizeOf rest < n := by
          have : sizeOf rest < sizeOf (s :: rest) := by
            simp <;> omega
          omega
        have hl1 : st1.env_stack.length = st.env_stack.length :=
          (ih (sizeOf s) hlt1).1 s le_rfl st st1 h1 hst1
        have hl2 : st2.env_stack.length = st1.env_stack.length :=
          (ih (sizeOf rest) hlt2).2.1 rest le_rfl st1 st2 (by omega) h
        omega
    · intro l hsz st st2 h1 h
      cases l with
      | nil =>
        rw [analyzeBranches] at h
        simp only [Except.ok.injEq] at h
        subst h
        rfl
      | cons br rest =>
        obtain ⟨cond, body, bl, bc⟩ := br
        rw [analyzeBranches] at h
        rcases bind_eq_ok h with ⟨ct, hct, h⟩
        rcases bind_eq_ok h with ⟨a, ha, h⟩
        have hltb : sizeOf body < n := by
          have : sizeOf body < sizeOf ((⟨cond, body, bl, bc⟩ : IfBranch) :: rest) := by
            simp <;> omega
          omega
        have hal : a.env_stack.length = (pushEnv st).env_stack.length :=
          (ih (sizeOf body) hltb).2.1 body le_rfl (pushEnv st) a
            (by rw [pushEnv_length]; omega) ha
        have h2a : 2 ≤ a.env_stack.length := by
          rw [hal, pushEnv_length]; omega
        have hpl : (popEnv a).env_stack.length = st.env_stack.length := by
          rw [popEnv_length_of_two a h2a, hal, pushEnv_length] <;> omega
        have hltr : sizeOf rest < n := by
          have : sizeOf rest < sizeOf ((⟨cond, body, bl, bc⟩ : IfBranch) :: rest) := by
            simp <;> omega
          omega
        have h2 : (analyzeBranches (popEnv a) rest : Except PyErr AnalyzerState)
            = .ok st2 := h
        have := (ih (sizeOf rest) hltr).2.2 rest le_rfl (popEnv a) st2
          (by rw [hpl]; omega) h2
        omega

theorem foldl_envSet_length (l : List ParamInfo) (s0 : AnalyzerState) :
    (l.foldl (fun s p => envSet s p.name ⟨some (p.type.getD "auto"), none⟩)
        s0).env_stack.length = s0.env_stack.length := by
  induction l generalizing s0 with
  | nil => rfl
  | cons p rest ihp =>
    rw [List.foldl_cons, ihp, envSet_length]

theorem registerFunctions_env (fns : List Function) :
    ∀ (st : AnalyzerState) (r : List Function × AnalyzerState),
    registerFunctions st fns = .ok r → r.2.env_stack = st.env_stack := by
  induction fns with
  | nil =>
    intro st r h
    rw [registerFunctions] at h
    simp only [Except.ok.injEq] at h
    subst h
    rfl
  | cons fn rest ihf =>
    intro st r h
    rw [registerFunctions] at h
    split at h
    · exact absurd h (errAt_ne_ok _ _ _ _ _)
    · rcases bind_eq_ok h with ⟨res, hres, h⟩
      rcases bind_eq_ok h with ⟨res2, hres2, h⟩
      simp only [Except.ok.injEq] at h
      subst h
      have h9 := ihf _ res2 hres2
      exact h9

theorem analyzeFunction_length (st : AnalyzerState) (fn : Function)
    (st2 : AnalyzerState) (h1 : 1 ≤ st.env_stack.length)
    (h : analyzeFunction st fn = .ok st2) :
    st2.env_stack.length = st.env_stack.length := by
  rw [analyzeFunction] at h
  split at h
  · simp only [Except.ok.injEq] at h
    subst h
    rfl
  · rcases bind_eq_ok h with ⟨a, ha, h⟩
    have hlen : a.env_stack.length = st.env_stack.length + 1 := by
      have := (analyzeLen (sizeOf fn.body)).2.1 fn.body le_rfl _ a
        (by rw [foldl_envSet_length]
            have hp : ({ pushEnv st with
                function_depth := st.function_depth + 1 }).env_stack.length
                = st.env_stack.length + 1 := pushEnv_length st
            omega) ha
      rw [foldl_envSet_length] at this
      have hp : ({ pushEnv st with
          function_depth := st.function_depth + 1 }).env_stack.length
          = st.env_stack.length + 1 := pushEnv_length st
      omega
    simp only [Except.ok.injEq] at h
    subst h
    have h2a : 2 ≤ ({ a with
        function_depth := a.function_depth - 1 } :
        AnalyzerState).env_stack.length := by
      have : ({ a with function_depth := a.function_depth - 1 } :
          AnalyzerState).env_stack.length = a.env_stack.length := rfl
      omega
    rw [popEnv_length_of_two _ h2a]
    have : ({ a with function_depth := a.function_depth - 1 } :
        AnalyzerState).env_stack.length = a.env_stack.length := rfl
    omega

theorem foldlM_analyzeFunction_length (fns : List Function) :
    ∀ (st st2 : AnalyzerState), 1 ≤ st.env_stack.length →
    fns.foldlM analyzeFunction st = .ok st2 →
    st2.env_stack.length = st.env_stack.length := by
  induction fns with
  | nil =>
    intro st st2 h1 h
    simp only [List.foldlM_nil] at h
    cases h
    rfl
  | cons fn rest ihf =>
    intro st st2 h1 h
    simp only [List.foldlM_cons] at h
    rcases bind_eq_ok h with ⟨a, ha, h⟩
    have hl1 := analyzeFunction_length st fn a h1 ha
    have hl2 := ihf a st2 (by omega) h
    omega

theorem analyze_final_length (src : String) (p : Program) (pr : Program)
    (st2 : AnalyzerState)
    (h : analyze (initState src) p = .ok (pr, st2)) :
    st2.env_stack.length = 1 := by
  rw [analyze] at h
  rcases bind_eq_ok h with ⟨r1, hr1, h⟩
  rcases bind_eq_ok h with ⟨s2, hs2, h⟩
  rcases bind_eq_ok h with ⟨s3, hs3, h⟩
  simp only [Except.ok.injEq, Prod.mk.injEq] at h
  have henv : r1.2.env_stack = (initState src).env_stack :=
    registerFunctions_env p.functions (initState src) r1 hr1
  have hl1 : r1.2.env_stack.length = 1 := by
    rw [henv]
    rfl
  have hl2 := foldlM_analyzeFunction_length r1.1 r1.2 s2 (by omega) hs2
  have hl3 := (analyzeLen (sizeOf p.statements)).2.1 p.statements le_rfl s2 s3
    (by omega) hs3
  have : st2 = s3 := h.2.symm
  subst this
  omega

/-- C10: scope-stack invariant of the analyzer.  (i) `_pop_env` refuses to
remove the last frame, so the stack is never emptied; (ii) every
statement handler leaves the stack depth unchanged (each block pushes and
pops in a balanced way), as does the packaged `_block` helper; (iii) a
completed `analyze` run starting from the fresh state (single global
frame) ends with exactly the single global frame again. -/
theorem c10_scope_stack_invariant :
    (∀ st : AnalyzerState, 1 ≤ st.env_stack.length →
      1 ≤ (popEnv st).env_stack.length)
    ∧ (∀ (st : AnalyzerState) (s : Stmt) (st2 : AnalyzerState),
        1 ≤ st.env_stack.length → analyzeStmt st s = .ok st2 →
        st2.env_stack.length = st.env_stack.length)
    ∧ (∀ (st : AnalyzerState) (body : List Stmt) (st2 : AnalyzerState),
        1 ≤ st.env_stack.length → analyzeBlock st body = .ok st2 →
        st2.env_stack.length = st.env_stack.length)
    ∧ (∀ (src : String) (p pr : Program) (st2 : AnalyzerState),
        analyze (initState src) p = .ok (pr, st2) →
        st2.env_stack.length = 1) := by
  refine ⟨?_, ?_, ?_, ?_⟩
  · intro st h1
    rcases hs : st.env_stack with _ | ⟨f, _ | ⟨g, rest⟩⟩
    · rw [hs] at h1; simp at h1
    · unfold popEnv; rw [hs]; simp [hs]
    · have h2 : 2 ≤ st.env_stack.length := by rw [hs]; simp <;> omega
      rw [popEnv_length_of_two st h2]
      omega
  · intro st s st2 h1 h
    exact (analyzeLen (sizeOf s)).1 s le_rfl st st2 h1 h
  · intro st body st2 h1 h
    rw [analyzeBlock] at h
    rcases bind_eq_ok h with ⟨a, ha, h⟩
    have hal : a.env_stack.length = (pushEnv st).env_stack.length :=
      (analyzeLen (sizeOf body)).2.1 body le_rfl (pushEnv st) a
        (by rw [pushEnv_length]; omega) ha
    have h2a : 2 ≤ a.env_stack.length := by
      rw [hal, pushEnv_length]; omega
    simp only [Except.ok.injEq] at h
    subst h
    rw [popEnv_length_of_two a h2a, hal, pushEnv_length] <;> omega
  · intro src p pr st2 h
    exact analyze_final_length src p pr st2 h

/-- Closed witness for C10 at concrete inputs: the empty source's fresh
state, a `print` with no values, an empty block, and the empty program. -/
theorem c10_scope_stack_invariant_witness :
    1 ≤ (popEnv (initState "")).env_stack.length
    ∧ (initState "").env_stack.length = (initState "").env_stack.length
    ∧ (popEnv (pushEnv (initState ""))).env_stack.length
        = (initState "").env_stack.length
    ∧ (initState "").env_stack.length = 1 :=
  ⟨c10_scope_stack_invariant.1 (initState "") (by decide),
   c10_scope_stack_invariant.2.1 (initState "") (.Print [] none none)
     (initState "") (by decide) rfl,
   c10_scope_stack_invariant.2.2.1 (initState "") []
     (popEnv (pushEnv (initState ""))) (by decide) rfl,
   c10_scope_stack_invariant.2.2.2 "" ⟨[], [], none, none⟩
     ⟨[], [], none, none⟩ (initState "") rfl⟩


/-! ## C9: the token stream ends with exactly one EOF token -/


/-- The scanner loop's step on a nonempty input, restated as a plain
equation (the automatic equation lemmas for `scanLoop` are conditional on
the inner token-shape matches, which gets in the way of rewriting). -/
theorem scanLoop_cons_eq (fuel : Nat) (ch : Char) (rest : List Char)
    (line col : Nat) :
    scanLoop (fuel + 1) (ch :: rest) line col =
    if ch = ' ' ∨ ch = '\t' ∨ ch = '\r' then
      scanLoop fuel rest line (col + 1)
    else if ch = '\n' then
      scanLoop fuel rest (line + 1) 1
    else if ch = '#' then
      -- `_skip_until_newline` stops just before the newline
      let k := (rest.takeWhile (fun ch => ch ≠ '\n')).length
      scanLoop fuel (rest.drop k) line (col + 1 + k)
    else if ch = '"' then
      match stringScan rest false line (col + 1) [] with
      | .error e => .error e
      | .ok (lex, rest2, line2, col2) =>
        consTok ⟨.STRING, lex, line2, col2⟩ (scanLoop fuel rest2 line2 col2)
    else if ch.isDigit then
      -- `_number`: a digit run, optionally '.' followed by more digits
      -- (the '.' is only consumed when `_peek_next` is a digit)
      let ds := rest.takeWhile Char.isDigit
      match rest.drop ds.length with
      | '.' :: d :: r2 =>
        if d.isDigit then
          let frac := (d :: r2).takeWhile Char.isDigit
          let lexeme := ch :: (ds ++ '.' :: frac)
          consTok ⟨.NUMBER, String.mk lexeme, line, col + lexeme.length⟩
            (scanLoop fuel ((d :: r2).drop frac.length) line (col + lexeme.length))
        else
          let lexeme := ch :: ds
          consTok ⟨.NUMBER, String.mk lexeme, line, col + lexeme.length⟩
            (scanLoop fuel (rest.drop ds.length) line (col + lexeme.length))
      | _ =>
        let lexeme := ch :: ds
        consTok ⟨.NUMBER, String.mk lexeme, line, col + lexeme.length⟩
          (scanLoop fuel (rest.drop ds.length) line (col + lexeme.length))
    else if ch.isAlpha ∨ ch = '_' then
      -- `_identifier`: maximal run of alphanumerics/underscore
      let ws := rest.takeWhile (fun ch => ch.isAlphanum ∨ ch = '_')
      let text := String.mk (ch :: ws)
      let kind := if KEYWORDS.contains text then TokenKind.KEYWORD
        else TokenKind.IDENT
      consTok ⟨kind, text, line, col + 1 + ws.length⟩
        (scanLoop fuel (rest.drop ws.length) line (col + 1 + ws.length))
    else if ch = '=' then
      match rest with
      | '=' :: r2 => consTok ⟨.EQEQ, "==", line, col + 2⟩
          (scanLoop fuel r2 line (col + 2))
      | _ => consTok ⟨.EQ, "=", line, col + 1⟩ (scanLoop fuel rest line (col + 1))
    else if ch = '!' then
      match rest with
      | '=' :: r2 => consTok ⟨.NEQ, "!=", line, col + 2⟩
          (scanLoop fuel r2 line (col + 2))
      | _ => consTok ⟨.BANG, "!", line, col + 1⟩ (scanLoop fuel rest line (col + 1))
    else if ch = '>' then
      match rest with
      | '=' :: r2 => consTok ⟨.GTE, ">=", line, col + 2⟩
          (scanLoop fuel r2 line (col + 2))
      | _ => consTok ⟨.GT, ">", line, col + 1⟩ (scanLoop fuel rest line (col + 1))
    else if ch = '<' then
      match rest with
      | '=' :: r2 => consTok ⟨.LTE, "<=", line, col + 2⟩
          (scanLoop fuel r2 line (col + 2))
      | _ => consTok ⟨.LT, "<", line, col + 1⟩ (scanLoop fuel rest line (col + 1))
    else if ch = '&' then
      consTok ⟨.AMP, "&", line, col + 1⟩ (scanLoop fuel rest line (col + 1))
    else if ch = '|' then
      consTok ⟨.PIPE, "|", line, col + 1⟩ (scanLoop fuel rest line (col + 1))
    else if ch = '+' then
      consTok ⟨.PLUS, "+", line, col + 1⟩ (scanLoop fuel rest line (col + 1))
    else if ch = '-' then
      consTok ⟨.MINUS, "-", line, col + 1⟩ (scanLoop fuel rest line (col + 1))
    else if ch = '*' then
      consTok ⟨.STAR, "*", line, col + 1⟩ (scanLoop fuel rest line (col + 1))
    else if ch = '/' then
      consTok ⟨.SLASH, "/", line, col + 1⟩ (scanLoop fuel rest line (col + 1))
    else if ch = '^' then
      consTok ⟨.CARET, "^", line, col + 1⟩ (scanLoop fuel rest line (col + 1))
    else if ch = '(' then
      consTok ⟨.LPAREN, "(", line, col + 1⟩ (scanLoop fuel rest line (col + 1))
    else if ch = ')' then
      consTok ⟨.RPAREN, ")", line, col + 1⟩ (scanLoop fuel rest line (col + 1))
    else if ch = ',' then
      consTok ⟨.COMMA, ",", line, col + 1⟩ (scanLoop fuel rest line (col + 1))
    else
      .error (.lexerError ("Unhandled character \x27" ++ String.mk [ch]
        ++ "\x27 at " ++ toString line ++ ":" ++ toString (col + 1))) := rfl

/-- Inverting `consTok` on a success. -/
theorem consTok_ok {t : Token} {r : Except PyErr (List Token × Nat × Nat)}
    {ts : List Token} {l c : Nat} (h : consTok t r = .ok (ts, l, c)) :
    ∃ ts2, r = .ok (ts2, l, c) ∧ ts = t :: ts2 := by
  cases r with
  | error e => exact Except.noConfusion h
  | ok p =>
    obtain ⟨ts0, l0, c0⟩ := p
    simp only [consTok, Except.ok.injEq, Prod.mk.injEq] at h
    obtain ⟨h1, h2, h3⟩ := h
    subst h2
    subst h3
    exact ⟨ts0, rfl, h1.symm⟩

/-- No iteration of the scanner loop ever emits an EOF-kinded token: the
EOF token is appended once, by `scan` itself, after the loop finishes. -/
theorem scanLoop_no_eof : ∀ (fuel : Nat) (cs : List Char) (line col : Nat)
    (ts : List Token) (l c : Nat),
    scanLoop fuel cs line col = .ok (ts, l, c) →
    ∀ t ∈ ts, t.kind ≠ TokenKind.EOF := by
  intro fuel
  induction fuel with
  | zero =>
    intro cs line col ts l c h
    exact Except.noConfusion h
  | succ fuel ihf =>
    intro cs line col ts l c h
    cases cs with
    | nil =>
      simp only [scanLoop, Except.ok.injEq, Prod.mk.injEq] at h
      obtain ⟨h1, -, -⟩ := h
      subst h1
      intro t ht
      exact absurd ht (List.not_mem_nil t)
    | cons ch rest =>
      rw [scanLoop_cons_eq] at h
      by_cases hp1 : ch = ' ' ∨ ch = '\t' ∨ ch = '\x0d'
      · rw [if_pos hp1] at h
        exact ihf _ _ _ _ _ _ h
      · rw [if_neg hp1] at h
        by_cases hp2 : ch = '\n'
        · rw [if_pos hp2] at h
          exact ihf _ _ _ _ _ _ h
        · rw [if_neg hp2] at h
          by_cases hp3 : ch = '#'
          · rw [if_pos hp3] at h
            exact ihf _ _ _ _ _ _ h
          · rw [if_neg hp3] at h
            by_cases hp4 : ch = '"'
            · rw [if_pos hp4] at h
              try dsimp only at h
              repeat' split at h
              all_goals
                first
                | exact Except.noConfusion h
                | exact ihf _ _ _ _ _ _ h
                | (rcases consTok_ok h with ⟨ts2, hr, hts⟩
                   subst hts
                   intro t ht
                   rcases List.mem_cons.mp ht with h3 | h3
                   · subst h3
                     first
                     | (intro hK; exact TokenKind.noConfusion hK)
                     | (split <;> intro hK <;> exact TokenKind.noConfusion hK)
                   · exact ihf _ _ _ _ _ _ hr t h3)
            · rw [if_neg hp4] at h
              by_cases hp5 : ch.isDigit = true
              · rw [if_pos hp5] at h
                try dsimp only at h
                repeat' split at h
                all_goals
                  first
                  | exact Except.noConfusion h
                  | exact ihf _ _ _ _ _ _ h
                  | (rcases consTok_ok h with ⟨ts2, hr, hts⟩
                     subst hts
                     intro t ht
                     rcases List.mem_cons.mp ht with h3 | h3
                     · subst h3
                       first
                       | (intro hK; exact TokenKind.noConfusion hK)
                       | (split <;> intro hK <;> exact TokenKind.noConfusion hK)
                     · exact ihf _ _ _ _ _ _ hr t h3)
              · rw [if_neg hp5] at h
                by_cases hp6 : ch.isAlpha = true ∨ ch = '_'
                · rw [if_pos hp6] at h
                  try dsimp only at h
                  repeat' split at h
                  all_goals
                    first
                    | exact Except.noConfusion h
                    | exact ihf _ _ _ _ _ _ h
                    | (rcases consTok_ok h with ⟨ts2, hr, hts⟩
                       subst hts
                       intro t ht
                       rcases List.mem_cons.mp ht with h3 | h3
                       · subst h3
                         first
                         | (intro hK; exact TokenKind.noConfusion hK)
                         | (split <;> intro hK <;> exact TokenKind.noConfusion hK)
                       · exact ihf _ _ _ _ _ _ hr t h3)
                · rw [if_neg hp6] at h
                  by_cases hp7 : ch = '='
                  · rw [if_pos hp7] at h
                    try dsimp only at h
                    repeat' split at h
                    all_goals
                      first
                      | exact Except.noConfusion h
                      | exact ihf _ _ _ _ _ _ h
                      | (rcases consTok_ok h with ⟨ts2, hr, hts⟩
                         subst hts
                         intro t ht
                         rcases List.mem_cons.mp ht with h3 | h3
                         · subst h3
                           first
                           | (intro hK; exact TokenKind.noConfusion hK)
                           | (split <;> intro hK <;> exact TokenKind.noConfusion hK)
                         · exact ihf _ _ _ _ _ _ hr t h3)
                  · rw [if_neg hp7] at h
                    by_cases hp8 : ch = '!'
                    · rw [if_pos hp8] at h
                      try dsimp only at h
                      repeat' split at h
                      all_goals
                        first
                        | exact Except.noConfusion h
                        | exact ihf _ _ _ _ _ _ h
                        | (rcases consTok_ok h with ⟨ts2, hr, hts⟩
                           subst hts
                           intro t ht
                           rcases List.mem_cons.mp ht with h3 | h3
                           · subst h3
                             first
                             | (intro hK; exact TokenKind.noConfusion hK)
                             | (split <;> intro hK <;> exact TokenKind.noConfusion hK)
                           · exact ihf _ _ _ _ _ _ hr t h3)
                    · rw [if_neg hp8] at h
                      by_cases hp9 : ch = '>'
                      · rw [if_pos hp9] at h
                        try dsimp only at h
                        repeat' split at h
                        all_goals
                          first
                          | exact Except.noConfusion h
                          | exact ihf _ _ _ _ _ _ h
                          | (rcases consTok_ok h with ⟨ts2, hr, hts⟩
                             subst hts
                             intro t ht
                             rcases List.mem_cons.mp ht with h3 | h3
                             · subst h3
                               first
                               | (intro hK; exact TokenKind.noConfusion hK)
                               | (split <;> intro hK <;> exact TokenKind.noConfusion hK)
                             · exact ihf _ _ _ _ _ _ hr t h3)
                      · rw [if_neg hp9] at h
                        by_cases hp10 : ch = '<'
                        · rw [if_pos hp10] at h
                          try dsimp only at h
                          repeat' split at h
                          all_goals
                            first
                            | exact Except.noConfusion h
                            | exact ihf _ _ _ _ _ _ h
                            | (rcases consTok_ok h with ⟨ts2, hr, hts⟩
                               subst hts
                               intro t ht
                               rcases List.mem_cons.mp ht with h3 | h3
                               · subst h3
                                 first
                                 | (intro hK; exact TokenKind.noConfusion hK)
                                 | (split <;> intro hK <;> exact TokenKind.noConfusion hK)
                               · exact ihf _ _ _ _ _ _ hr t h3)
                        · rw [if_neg hp10] at h
                          by_cases hp11 : ch = '&'
                          · rw [if_pos hp11] at h
                            rcases consTok_ok h with ⟨ts2, hr, hts⟩
                            subst hts
                            intro t ht
                            rcases List.mem_cons.mp ht with h3 | h3
                            · subst h3
                              first
                              | (intro hK; exact TokenKind.noConfusion hK)
                              | (split <;> intro hK <;> exact TokenKind.noConfusion hK)
                            · exact ihf _ _ _ _ _ _ hr t h3
                          · rw [if_neg hp11] at h
                            by_cases hp12 : ch = '|'
                            · rw [if_pos hp12] at h
                              rcases consTok_ok h with ⟨ts2, hr, hts⟩
                              subst hts
                              intro t ht
                              rcases List.mem_cons.mp ht with h3 | h3
                              · subst h3
                                first
                                | (intro hK; exact TokenKind.noConfusion hK)
                                | (split <;> intro hK <;> exact TokenKind.noConfusion hK)
                              · exact ihf _ _ _ _ _ _ hr t h3
                            · rw [if_neg hp12] at h
                              by_cases hp13 : ch = '+'
                              · rw [if_pos hp13] at h
                                rcases consTok_ok h with ⟨ts2, hr, hts⟩
                                subst hts
                                intro t ht
                                rcases List.mem_cons.mp ht with h3 | h3
                                · subst h3
                                  first
                                  | (intro hK; exact TokenKind.noConfusion hK)
                                  | (split <;> intro hK <;> exact TokenKind.noConfusion hK)
                                · exact ihf _ _ _ _ _ _ hr t h3
                              · rw [if_neg hp13] at h
                                by_cases hp14 : ch = '-'
                                · rw [if_pos hp14] at h
                                  rcases consTok_ok h with ⟨ts2, hr, hts⟩
                                  subst hts
                                  intro t ht
                                  rcases List.mem_cons.mp ht with h3 | h3
                                  · subst h3
                                    first
                                    | (intro hK; exact TokenKind.noConfusion hK)
                                    | (split <;> intro hK <;> exact TokenKind.noConfusion hK)
                                  · exact ihf _ _ _ _ _ _ hr t h3
                                · rw [if_neg hp14] at h
                                  by_cases hp15 : ch = '*'
                                  · rw [if_pos hp15] at h
                                    rcases consTok_ok h with ⟨ts2, hr, hts⟩
                                    subst hts
                                    intro t ht
                                    rcases List.mem_cons.mp ht with h3 | h3
                                    · subst h3
                                      first
                                      | (intro hK; exact TokenKind.noConfusion hK)
                                      | (split <;> intro hK <;> exact TokenKind.noConfusion hK)
                                    · exact ihf _ _ _ _ _ _ hr t h3
                                  · rw [if_neg hp15] at h
                                    by_cases hp16 : ch = '/'
                                    · rw [if_pos hp16] at h
                                      rcases consTok_ok h with ⟨ts2, hr, hts⟩
                                      subst hts
                                      intro t ht
                                      rcases List.mem_cons.mp ht with h3 | h3
                                      · subst h3
                                        first
                                        | (intro hK; exact TokenKind.noConfusion hK)
                                        | (split <;> intro hK <;> exact TokenKind.noConfusion hK)
                                      · exact ihf _ _ _ _ _ _ hr t h3
                                    · rw [if_neg hp16] at h
                                      by_cases hp17 : ch = '^'
                                      · rw [if_pos hp17] at h
                                        rcases consTok_ok h with ⟨ts2, hr, hts⟩
                                        subst hts
                                        intro t ht
                                        rcases List.mem_cons.mp ht with h3 | h3
                                        · subst h3
                                          first
                                          | (intro hK; exact TokenKind.noConfusion hK)
                                          | (split <;> intro hK <;> exact TokenKind.noConfusion hK)
                                        · exact ihf _ _ _ _ _ _ hr t h3
                                      · rw [if_neg hp17] at h
                                        by_cases hp18 : ch = '('
                                        · rw [if_pos hp18] at h
                                          rcases consTok_ok h with ⟨ts2, hr, hts⟩
                                          subst hts
                                          intro t ht
                                          rcases List.mem_cons.mp ht with h3 | h3
                                          · subst h3
                                            first
                                            | (intro hK; exact TokenKind.noConfusion hK)
                                            | (split <;> intro hK <;> exact TokenKind.noConfusion hK)
                                          · exact ihf _ _ _ _ _ _ hr t h3
                                        · rw [if_neg hp18] at h
                                          by_cases hp19 : ch = ')'
                                          · rw [if_pos hp19] at h
                                            rcases consTok_ok h with ⟨ts2, hr, hts⟩
                                            subst hts
                                            intro t ht
                                            rcases List.mem_cons.mp ht with h3 | h3
                                            · subst h3
                                              first
                                              | (intro hK; exact TokenKind.noConfusion hK)
                                              | (split <;> intro hK <;> exact TokenKind.noConfusion hK)
                                            · exact ihf _ _ _ _ _ _ hr t h3
                                          · rw [if_neg hp19] at h
                                            by_cases hp20 : ch = ','
                                            · rw [if_pos hp20] at h
                                              rcases consTok_ok h with ⟨ts2, hr, hts⟩
                                              subst hts
                                              intro t ht
                                              rcases List.mem_cons.mp ht with h3 | h3
                                              · subst h3
                                                first
                                                | (intro hK; exact TokenKind.noConfusion hK)
                                                | (split <;> intro hK <;> exact TokenKind.noConfusion hK)
                                              · exact ihf _ _ _ _ _ _ hr t h3
                                            · rw [if_neg hp20] at h
                                              exact Except.noConfusion h


/-- `scan` unfolded (plain equation for rewriting). -/
theorem scan_eq (source : String) :
    scan source =
      (match scanLoop (source.toList.length + 1) source.toList 1 1 with
       | .error e => .error e
       | .ok (ts, l, c) => .ok (ts ++ [⟨.EOF, "", l, c⟩])) := rfl

/-- C9: whenever `scan` returns (raises no error), the token list it
returns ends with the end-of-input token, that token is the only
EOF-kinded token in the list, and every earlier token has a different
kind. -/
theorem c9_scan_single_trailing_eof (source : String) (ts : List Token)
    (h : scan source = .ok ts) :
    ∃ ts0 t, ts = ts0 ++ [t] ∧ t.kind = TokenKind.EOF
      ∧ (∀ u ∈ ts0, u.kind ≠ TokenKind.EOF)
      ∧ ts.countP (fun u => u.kind == TokenKind.EOF) = 1 := by
  rw [scan_eq] at h
  split at h
  · exact Except.noConfusion h
  · rename_i ts1 l1 c1 heq
    simp only [Except.ok.injEq] at h
    subst h
    have hno : ∀ u ∈ ts1, u.kind ≠ TokenKind.EOF :=
      scanLoop_no_eof _ _ _ _ ts1 l1 c1 heq
    refine ⟨ts1, ⟨.EOF, "", l1, c1⟩, rfl, rfl, hno, ?_⟩
    rw [List.countP_append]
    have h0 : ts1.countP (fun u => u.kind == TokenKind.EOF) = 0 := by
      rw [List.countP_eq_zero]
      intro u hu
      simp only [beq_iff_eq]
      exact hno u hu
    rw [h0]
    rfl

/-- Closed witness for C9: the empty source scans to the single EOF
token. -/
theorem c9_scan_single_trailing_eof_witness :
    ∃ ts0 t, [(⟨TokenKind.EOF, "", 1, 1⟩ : Token)] = ts0 ++ [t]
      ∧ t.kind = TokenKind.EOF
      ∧ (∀ u ∈ ts0, u.kind ≠ TokenKind.EOF)
      ∧ ([(⟨TokenKind.EOF, "", 1, 1⟩ : Token)]).countP
          (fun u => u.kind == TokenKind.EOF) = 1 :=
  c9_scan_single_trailing_eof "" [⟨TokenKind.EOF, "", 1, 1⟩] rfl


/-! ## C5 (amended): strings continue across newlines -/

/-- A quote-free, backslash-free body followed by the closing quote is
consumed in full: the lexeme accumulates every character (newlines
included), the line counter advances by the number of newlines, and the
column follows `stringCol`. -/
theorem stringScan_through : ∀ (body : List Char),
    (∀ ch ∈ body, ch ≠ '"' ∧ ch ≠ '\\') →
    ∀ (tail acc : List Char) (line col : Nat),
    stringScan (body ++ '"' :: tail) false line col acc
      = .ok (String.mk (acc.reverse ++ body), tail,
          line + countNL body, stringCol body col + 1) := by
  intro body
  induction body with
  | nil =>
    intro _ tail acc line col
    simp [stringScan, countNL, stringCol]
  | cons ch rest ih =>
    intro hb tail acc line col
    have h1 : ch ≠ '"' := (hb ch (List.mem_cons_self _ _)).1
    have h2 : ch ≠ '\\' := (hb ch (List.mem_cons_self _ _)).2
    have hrest := fun c hc => hb c (List.mem_cons_of_mem _ hc)
    rw [List.cons_append, stringScan]
    rw [if_neg (by simp), if_neg h2, if_neg h1]
    by_cases hn : ch = '\n'
    · rw [if_pos hn, ih hrest]
      have e1 : (ch :: acc).reverse ++ rest = acc.reverse ++ ch :: rest := by
        simp
      have e2 : line + 1 + countNL rest = line + countNL (ch :: rest) := by
        simp [countNL, hn]
        omega
      have e3 : stringCol rest 1 = stringCol (ch :: rest) col := by
        simp [stringCol, hn]
      rw [e1, e2, e3]
    · rw [if_neg hn, ih hrest]
      have e1 : (ch :: acc).reverse ++ rest = acc.reverse ++ ch :: rest := by
        simp
      have e2 : line + countNL rest = line + countNL (ch :: rest) := by
        simp [countNL, hn]
      have e3 : stringCol rest (col + 1) = stringCol (ch :: rest) col := by
        simp [stringCol, hn]
      rw [e1, e2, e3]

/-- A quote-free, backslash-free open string that reaches end of input
raises `Unterminated string` at the position as updated by the consumed
newlines (the newline does not itself abort the scan). -/
theorem stringScan_unterminated : ∀ (body : List Char),
    (∀ ch ∈ body, ch ≠ '"' ∧ ch ≠ '\\') →
    ∀ (acc : List Char) (line col : Nat),
    stringScan body false line col acc
      = .error (.lexerError ("Unterminated string at "
          ++ toString (line + countNL body) ++ ":"
          ++ toString (stringCol body col))) := by
  intro body
  induction body with
  | nil =>
    intro _ acc line col
    simp [stringScan, countNL, stringCol]
  | cons ch rest ih =>
    intro hb acc line col
    have h1 : ch ≠ '"' := (hb ch (List.mem_cons_self _ _)).1
    have h2 : ch ≠ '\\' := (hb ch (List.mem_cons_self _ _)).2
    have hrest := fun c hc => hb c (List.mem_cons_of_mem _ hc)
    rw [stringScan]
    rw [if_neg (by simp), if_neg h2, if_neg h1]
    by_cases hn : ch = '\n'
    · rw [if_pos hn, ih hrest]
      have e2 : 1 + 1 + countNL rest = 1 + countNL (ch :: rest) := by
        simp [countNL, hn]
        omega
      have e2b : line + 1 + countNL rest = line + countNL (ch :: rest) := by
        simp [countNL, hn]
        omega
      have e3 : stringCol rest 1 = stringCol (ch :: rest) col := by
        simp [stringCol, hn]
      rw [e2b, e3]
    · rw [if_neg hn, ih hrest]
      have e2 : line + countNL rest = line + countNL (ch :: rest) := by
        simp [countNL, hn]
      have e3 : stringCol rest (col + 1) = stringCol (ch :: rest) col := by
        simp [stringCol, hn]
      rw [e2, e3]

/-- C5 (amended): a newline inside an open string literal does not make
the scanner raise.  The newline is consumed into the lexeme with the line
counter incremented and the column reset; the literal is closed by the
next quote, and only a literal still open at end of input raises
`Unterminated string`, reported at the newline-updated position. -/
theorem c5_amended_newline_in_string :
    (∀ body, (∀ ch ∈ body, ch ≠ '"' ∧ ch ≠ '\\') →
      ∀ (tail acc : List Char) (line col : Nat),
      stringScan (body ++ '"' :: tail) false line col acc
        = .ok (String.mk (acc.reverse ++ body), tail,
            line + countNL body, stringCol body col + 1))
    ∧ (∀ body, (∀ ch ∈ body, ch ≠ '"' ∧ ch ≠ '\\') →
      ∀ (acc : List Char) (line col : Nat),
      stringScan body false line col acc
        = .error (.lexerError ("Unterminated string at "
            ++ toString (line + countNL body) ++ ":"
            ++ toString (stringCol body col)))) :=
  ⟨stringScan_through, stringScan_unterminated⟩

/-- Closed witness for the amended C5 on the body `a`, newline, `b`
(opened at line 1, column 2, i.e. right after the opening quote of the
counterexample input): closing quote at the end gives the multi-line
token at line 2; no closing quote gives `Unterminated string at 2:2`. -/
theorem c5_amended_newline_in_string_witness :
    stringScan (['a', '\n', 'b'] ++ '"' :: []) false 1 2 []
      = .ok (String.mk (List.reverse [] ++ ['a', '\n', 'b']), [],
          1 + countNL ['a', '\n', 'b'], stringCol ['a', '\n', 'b'] 2 + 1)
    ∧ stringScan ['a', '\n', 'b'] false 1 2 []
      = .error (.lexerError ("Unterminated string at "
          ++ toString (1 + countNL ['a', '\n', 'b']) ++ ":"
          ++ toString (stringCol ['a', '\n', 'b'] 2))) :=
  ⟨c5_amended_newline_in_string.1 ['a', '\n', 'b'] (by decide) [] [] 1 2,
   c5_amended_newline_in_string.2 ['a', '\n', 'b'] (by decide) [] 1 2⟩


/-! ## C6 (amended): which error messages carry `at line:col` -/

/-- `consTok` passes raised errors through unchanged. -/
theorem consTok_error {t : Token} {r : Except PyErr (List Token × Nat × Nat)}
    {e : PyErr} (h : consTok t r = .error e) : r = .error e := by
  cases r with
  | error e2 =>
    simp only [consTok, Except.error.injEq] at h
    rw [h]
  | ok p =>
    obtain ⟨ts0, l0, c0⟩ := p
    exact Except.noConfusion h

/-- Every LexerError the string scanner raises has an `at line:col`
suffix. -/
theorem stringScan_error_shape : ∀ (cs : List Char) (esc : Bool)
    (line col : Nat) (acc : List Char) (m : String),
    stringScan cs esc line col acc = .error (.lexerError m) →
    ∃ (pre : String) (l c : Nat), m = pre ++ " at " ++ toString l ++ ":" ++ toString c := by
  intro cs
  induction cs with
  | nil =>
    intro esc line col acc m h
    rw [stringScan] at h
    simp only [Except.error.injEq, PyErr.lexerError.injEq] at h
    refine ⟨"Unterminated string", line, col, ?_⟩
    rw [← h]
    rw [show ("Unterminated string" ++ " at " : String)
      = "Unterminated string at " from rfl]
  | cons ch rest ih =>
    intro esc line col acc m h
    rw [stringScan] at h
    repeat' split at h
    all_goals
      first
      | exact Except.noConfusion h
      | exact ih _ _ _ _ _ h

/-- Every LexerError the scanner loop raises has an `at line:col`
suffix (its two raise sites are `Unterminated string` and
`Unhandled character`, both position-stamped). -/
theorem scanLoop_error_shape : ∀ (fuel : Nat) (cs : List Char)
    (line col : Nat) (m : String),
    scanLoop fuel cs line col = .error (.lexerError m) →
    ∃ (pre : String) (l c : Nat), m = pre ++ " at " ++ toString l ++ ":" ++ toString c := by
  intro fuel
  induction fuel with
  | zero =>
    intro cs line col m h
    rw [scanLoop] at h
    simp only [Except.error.injEq] at h
    exact absurd h.symm (by simp)
  | succ fuel ihf =>
    intro cs line col m h
    cases cs with
    | nil =>
      rw [scanLoop] at h
      exact Except.noConfusion h
    | cons ch rest =>
      rw [scanLoop_cons_eq] at h
      by_cases hp1 : ch = ' ' ∨ ch = '\t' ∨ ch = '\x0d'
      · rw [if_pos hp1] at h
        exact ihf _ _ _ _ h
      · rw [if_neg hp1] at h
        by_cases hp2 : ch = '\n'
        · rw [if_pos hp2] at h
          exact ihf _ _ _ _ h
        · rw [if_neg hp2] at h
          by_cases hp3 : ch = '#'
          · rw [if_pos hp3] at h
            exact ihf _ _ _ _ h
          · rw [if_neg hp3] at h
            by_cases hp4 : ch = '"'
            · rw [if_pos hp4] at h
              split at h
              · simp only [Except.error.injEq] at h
                subst h
                exact stringScan_error_shape _ _ _ _ _ _ (by assumption)
              · exact ihf _ _ _ _ (consTok_error h)
            · rw [if_neg hp4] at h
              by_cases hp5 : ch.isDigit = true
              · rw [if_pos hp5] at h
                try dsimp only at h
                repeat' split at h
                all_goals exact ihf _ _ _ _ (consTok_error h)
              · rw [if_neg hp5] at h
                by_cases hp6 : ch.isAlpha = true ∨ ch = '_'
                · rw [if_pos hp6] at h
                  try dsimp only at h
                  exact ihf _ _ _ _ (consTok_error h)
                · rw [if_neg hp6] at h
                  by_cases hp7 : ch = '='
                  · rw [if_pos hp7] at h
                    try dsimp only at h
                    repeat' split at h
                    all_goals exact ihf _ _ _ _ (consTok_error h)
                  · rw [if_neg hp7] at h
                    by_cases hp8 : ch = '!'
                    · rw [if_pos hp8] at h
                      try dsimp only at h
                      repeat' split at h
                      all_goals exact ihf _ _ _ _ (consTok_error h)
                    · rw [if_neg hp8] at h
                      by_cases hp9 : ch = '>'
                      · rw [if_pos hp9] at h
                        try dsimp only at h
                        repeat' split at h
                        all_goals exact ihf _ _ _ _ (consTok_error h)
                      · rw [if_neg hp9] at h
                        by_cases hp10 : ch = '<'
                        · rw [if_pos hp10] at h
                          try dsimp only at h
                          repeat' split at h
                          all_goals exact ihf _ _ _ _ (consTok_error h)
                        · rw [if_neg hp10] at h
                          by_cases hp11 : ch = '&'
                          · rw [if_pos hp11] at h
                            try dsimp only at h
                            exact ihf _ _ _ _ (consTok_error h)
                          · rw [if_neg hp11] at h
                            by_cases hp12 : ch = '|'
                            · rw [if_pos hp12] at h
                              try dsimp only at h
                              exact ihf _ _ _ _ (consTok_error h)
                            · rw [if_neg hp12] at h
                              by_cases hp13 : ch = '+'
                              · rw [if_pos hp13] at h
                                try dsimp only at h
                                exact ihf _ _ _ _ (consTok_error h)
                              · rw [if_neg hp13] at h
                                by_cases hp14 : ch = '-'
                                · rw [if_pos hp14] at h
                                  try dsimp only at h
                                  exact ihf _ _ _ _ (consTok_error h)
                                · rw [if_neg hp14] at h
                                  by_cases hp15 : ch = '*'
                                  · rw [if_pos hp15] at h
                                    try dsimp only at h
                                    exact ihf _ _ _ _ (consTok_error h)
                                  · rw [if_neg hp15] at h
                                    by_cases hp16 : ch = '/'
                                    · rw [if_pos hp16] at h
                                      try dsimp only at h
                                      exact ihf _ _ _ _ (consTok_error h)
                                    · rw [if_neg hp16] at h
                                      by_cases hp17 : ch = '^'
                                      · rw [if_pos hp17] at h
                                        try dsimp only at h
                                        exact ihf _ _ _ _ (consTok_error h)
                                      · rw [if_neg hp17] at h
                                        by_cases hp18 : ch = '('
                                        · rw [if_pos hp18] at h
                                          try dsimp only at h
                                          exact ihf _ _ _ _ (consTok_error h)
                                        · rw [if_neg hp18] at h
                                          by_cases hp19 : ch = ')'
                                          · rw [if_pos hp19] at h
                                            try dsimp only at h
                                            exact ihf _ _ _ _ (consTok_error h)
                                          · rw [if_neg hp19] at h
                                            by_cases hp20 : ch = ','
                                            · rw [if_pos hp20] at h
                                              try dsimp only at h
                                              exact ihf _ _ _ _ (consTok_error h)
                                            · rw [if_neg hp20] at h
                                              refine ⟨"Unhandled character \x27" ++ String.mk [ch] ++ "\x27", line, col + 1, ?_⟩
                                              simp only [Except.error.injEq, PyErr.lexerError.injEq] at h
                                              rw [← h]
                                              rw [show ("\x27 at " : String) = "\x27" ++ " at " from rfl]
                                              simp [String.append_assoc]

/-- Every LexerError `scan` raises has an `at line:col` suffix. -/
theorem scan_error_shape (src : String) (m : String)
    (h : scan src = .error (.lexerError m)) :
    ∃ (pre : String) (l c : Nat), m = pre ++ " at " ++ toString l ++ ":" ++ toString c := by
  rw [scan_eq] at h
  split at h
  · simp only [Except.error.injEq] at h
    subst h
    exact scanLoop_error_shape _ _ _ _ _ (by assumption)
  · exact Except.noConfusion h

/-- C6 (amended): every LexerError message is of the shape
`<message> at <line>:<col>`; ParseErrors raised through `Parser._error`
(such as the statement dispatcher\x27s `Unexpected token ...`) carry the
same shape, but the `_consume*` helpers raise bare ParseError messages
with no position suffix at all. -/
theorem c6_amended_error_message_shapes :
    (∀ (src m : String), scan src = .error (.lexerError m) →
      ∃ (pre : String) (l c : Nat), m = pre ++ " at " ++ toString l ++ ":" ++ toString c)
    ∧ scanParse "do" = .error (.parseError "Unexpected token do at 1:3")
    ∧ scanParse "while 1 < 2 then"
        = .error (.parseError "Expected \x27do\x27 after while condition")
    ∧ (∀ (pre : String) (l c : Nat),
        "Expected \x27do\x27 after while condition"
          ≠ pre ++ " at " ++ toString l ++ ":" ++ toString c) := by
  refine ⟨scan_error_shape, rfl, rfl, fun pre l c h => ?_⟩
  have hd := congrArg String.data h
  have hmem : ':' ∈ (pre ++ " at " ++ toString l ++ ":" ++ toString c).data := by
    simp [String.data_append]
  rw [← hd] at hmem
  revert hmem
  decide

/-- Closed witness for the amended C6: the lexer error on input `$` is
position-stamped. -/
theorem c6_amended_error_message_shapes_witness :
    ∃ (pre : String) (l c : Nat), ("Unhandled character \x27$\x27 at 1:2" : String)
      = pre ++ " at " ++ toString l ++ ":" ++ toString c :=
  c6_amended_error_message_shapes.1 "$"
    "Unhandled character \x27$\x27 at 1:2" rfl

end Write
